import Mathlib

/-!
Shallow embedding of the masternode manager (`src/masternodeman.cpp`) of the
zeroonecoin repository, together with theorems settling the frozen claims
about it.

The registry `mapMasternodes : COutPoint → CMasternode` is embedded as an
association list of `CMasternode` values keyed by their `outpoint` field and
kept sorted by outpoint, mirroring `std::map` iteration order.  External
collaborators (chain service, payment scheduler, signature checks, sync
state) are passed in as explicit environment records, following the
interface listed in the specification.  Code of the repository that is not
part of `src/` (notably `masternode.h` / `masternode.cpp`) is modelled from
the specification; each such definition carries a doc comment starting with
`Modelled from the spec:`.
-/

/-- Collateral outpoint: 32-byte txid plus output index (`COutPoint`).
The txid is embedded as a `Nat` (its 256-bit value). -/
structure COutPoint where
  txid : Nat
  n : Nat
deriving DecidableEq

/-- Source order `COutPoint::operator<`: lexicographic on (txid, n). -/
def COutPoint.ltb (a b : COutPoint) : Bool :=
  a.txid < b.txid || (a.txid == b.txid && a.n < b.n)

/-- Network endpoint (`CService`): ip (`CNetAddr`) plus port. -/
structure CService where
  ip : Nat
  port : Nat
deriving DecidableEq

/-- Source order `CService::operator<`: lexicographic on (ip, port). -/
def CService.ltb (a b : CService) : Bool :=
  a.ip < b.ip || (a.ip == b.ip && a.port < b.port)

/-- Entry states of the masternode state machine (spec section 3.3). -/
inductive MNState where
  | preEnabled
  | enabled
  | expired
  | outpointSpent
  | updateRequired
  | sentinelPingExpired
  | newStartRequired
  | poseBanned
deriving DecidableEq

/-- Modelled from the spec: `MASTERNODE_POSE_BAN_MAX_SCORE` is declared in a
header that is not under `src/`; the spec names it `POSE_BAN_MAX_SCORE`
without fixing the numeric value.  The concrete value is irrelevant to every
claim; we fix the customary value 5. -/
def MASTERNODE_POSE_BAN_MAX_SCORE : Int := 5

/-- A registry entry (`CMasternode`).  Pings are represented by the fields
the manager reads from them (`lastPing.sigTime`); `lastPaidBlock` stands for
`GetLastPaidBlock()`.  `fPoSeVerified` is modelled from the spec: the entry
code that decides PoSe-verified status is not under `src/`, and the spec
treats "already PoSe-verified" as a per-entry state distinct from the ban
score (which it clamps to [0, MAX]). -/
structure CMasternode where
  outpoint : COutPoint
  addr : CService
  pubKeyCollateralAddress : Nat
  pubKeyMasternode : Nat
  sigTime : Int
  nProtocolVersion : Int
  nPoSeBanScore : Int
  fPoSeVerified : Bool
  nActiveState : MNState
  lastPaidBlock : Int
  lastPingSigTime : Int
deriving DecidableEq

/-- Modelled from the spec: `CMasternode::IncreasePoSeBanScore` is not under
`src/`; the spec clamps the score to [0, MAX]. -/
def CMasternode.IncreasePoSeBanScore (mn : CMasternode) : CMasternode :=
  if mn.nPoSeBanScore < MASTERNODE_POSE_BAN_MAX_SCORE then
    { mn with nPoSeBanScore := mn.nPoSeBanScore + 1 }
  else mn

/-- Modelled from the spec: `CMasternode::DecreasePoSeBanScore` is not under
`src/`; the spec clamps the score to [0, MAX], so a score already at 0 is
left unchanged. -/
def CMasternode.DecreasePoSeBanScore (mn : CMasternode) : CMasternode :=
  if 0 < mn.nPoSeBanScore then { mn with nPoSeBanScore := mn.nPoSeBanScore - 1 }
  else mn

/-- Modelled from the spec: `CMasternode::PoSeBan` is not under `src/`; the
spec says reaching MAX transitions the entry to `POSE_BANNED`, so banning
sets the score to MAX. -/
def CMasternode.PoSeBan (mn : CMasternode) : CMasternode :=
  { mn with nPoSeBanScore := MASTERNODE_POSE_BAN_MAX_SCORE }

/-- Modelled from the spec: state predicate `IsOutpointSpent` (entry code not
under `src/`). -/
def CMasternode.IsOutpointSpent (mn : CMasternode) : Bool :=
  mn.nActiveState == MNState.outpointSpent

/-- Modelled from the spec: state predicate `IsUpdateRequired` (entry code
not under `src/`). -/
def CMasternode.IsUpdateRequired (mn : CMasternode) : Bool :=
  mn.nActiveState == MNState.updateRequired

/-- Modelled from the spec: state predicate `IsPoSeBanned` (entry code not
under `src/`). -/
def CMasternode.IsPoSeBanned (mn : CMasternode) : Bool :=
  mn.nActiveState == MNState.poseBanned

/-- Modelled from the spec: state predicate `IsNewStartRequired` (entry code
not under `src/`). -/
def CMasternode.IsNewStartRequired (mn : CMasternode) : Bool :=
  mn.nActiveState == MNState.newStartRequired

/-- The registry map `mapMasternodes`, as an association list keyed by the
entries own `outpoint` and kept sorted by outpoint (the `std::map` iteration
order). -/
abbrev Registry := List CMasternode

/-- `CMasternodeMan::Has`: membership of an outpoint in the registry map. -/
def RegHas (R : Registry) (o : COutPoint) : Bool :=
  R.any (fun mn => mn.outpoint == o)

/-- `CMasternodeMan::HasAddr`: some entry of the map has the given addr. -/
def RegHasAddr (R : Registry) (a : CService) : Bool :=
  R.any (fun mn => mn.addr == a)

/-- Ordered insertion emulating `mapMasternodes[mn.outpoint] = mn` on the
`std::map` (key assumed absent, as `Add` checks first). -/
def insertByOutpoint (mn : CMasternode) : Registry → Registry
  | [] => [mn]
  | x :: xs =>
    if COutPoint.ltb mn.outpoint x.outpoint then mn :: x :: xs
    else x :: insertByOutpoint mn xs

/-- `CMasternodeMan::Add` (masternodeman.cpp:111-122): fail if the outpoint
or the addr is already present, otherwise store the entry. -/
def RegAdd (R : Registry) (mn : CMasternode) : Bool × Registry :=
  if RegHas R mn.outpoint then (false, R)
  else if RegHasAddr R mn.addr then (false, R)
  else (true, insertByOutpoint mn R)

/-- Registry erasure by outpoint (`mapMasternodes.erase`). -/
def RegRemove (R : Registry) (o : COutPoint) : Registry :=
  R.filter (fun mn => mn.outpoint != o)

/-- A registry operation: an insert attempt via `Add` or an erase. -/
inductive RegOp where
  | add (mn : CMasternode)
  | remove (o : COutPoint)

/-- Apply one registry operation. -/
def RegOp.apply (R : Registry) : RegOp → Registry
  | RegOp.add mn => (RegAdd R mn).2
  | RegOp.remove o => RegRemove R o

/-- Run a sequence of adds/removes from the empty registry. -/
def runRegOps (ops : List RegOp) : Registry :=
  ops.foldl RegOp.apply []

/-- Pairwise distinctness of the outpoints stored in a registry. -/
def DistinctOutpoints (R : Registry) : Prop :=
  R.Pairwise (fun a b => a.outpoint ≠ b.outpoint)

theorem regHas_eq_false_iff (R : Registry) (o : COutPoint) :
    RegHas R o = false ↔ ∀ mn ∈ R, mn.outpoint ≠ o := by
  simp [RegHas, List.any_eq_true]

theorem mem_insertByOutpoint {mn x : CMasternode} {R : Registry} :
    x ∈ insertByOutpoint mn R ↔ x = mn ∨ x ∈ R := by
  induction R with
  | nil => simp [insertByOutpoint]
  | cons y ys ih =>
    by_cases h : COutPoint.ltb mn.outpoint y.outpoint
    · simp only [insertByOutpoint, h, if_true, List.mem_cons]
    · simp only [insertByOutpoint, h, Bool.false_eq_true, if_false, List.mem_cons, ih]
      tauto

theorem distinct_insertByOutpoint {mn : CMasternode} {R : Registry}
    (hR : DistinctOutpoints R) (habs : ∀ x ∈ R, x.outpoint ≠ mn.outpoint) :
    DistinctOutpoints (insertByOutpoint mn R) := by
  induction R with
  | nil =>
    simp only [insertByOutpoint, DistinctOutpoints]
    exact List.pairwise_singleton _ _
  | cons y ys ih =>
    rcases hR with _ | ⟨hy, hys⟩
    have hy' : y.outpoint ≠ mn.outpoint := habs y (by simp)
    by_cases h : COutPoint.ltb mn.outpoint y.outpoint
    · unfold insertByOutpoint
      rw [if_pos h]
      refine List.Pairwise.cons ?_ (List.Pairwise.cons hy hys)
      intro b hb
      rcases List.mem_cons.mp hb with hb | hb
      · subst hb; exact fun e => hy' e.symm
      · exact fun e => (habs b (by simp [hb]) e.symm).elim
    · unfold insertByOutpoint
      rw [if_neg h]
      refine List.Pairwise.cons ?_ (ih hys (fun x hx => habs x (by simp [hx])))
      intro b hb
      rcases mem_insertByOutpoint.mp hb with hb | hb
      · subst hb; exact hy'
      · exact hy b hb

theorem distinct_regAdd {R : Registry} {mn : CMasternode}
    (hR : DistinctOutpoints R) : DistinctOutpoints (RegAdd R mn).2 := by
  unfold RegAdd
  by_cases h1 : RegHas R mn.outpoint
  · simpa [h1] using hR
  · by_cases h2 : RegHasAddr R mn.addr
    · simp only [Bool.not_eq_true] at h1
      simpa [h1, h2] using hR
    · simp only [Bool.not_eq_true] at h1 h2
      simp only [h1, h2, Bool.false_eq_true, if_false]
      exact distinct_insertByOutpoint hR ((regHas_eq_false_iff R mn.outpoint).mp h1)

theorem distinct_regRemove {R : Registry} (o : COutPoint)
    (hR : DistinctOutpoints R) : DistinctOutpoints (RegRemove R o) :=
  List.Pairwise.sublist (List.filter_sublist R) hR

theorem distinct_runRegOps (ops : List RegOp) : DistinctOutpoints (runRegOps ops) := by
  suffices h : ∀ R, DistinctOutpoints R → DistinctOutpoints (ops.foldl RegOp.apply R) by
    exact h [] (by simp [DistinctOutpoints])
  induction ops with
  | nil => intro R hR; simpa using hR
  | cons op rest ih =>
    intro R hR
    refine ih _ ?_
    cases op with
    | add mn => exact distinct_regAdd hR
    | remove o => exact distinct_regRemove o hR

/-- C1: `Add` fails and leaves the map unchanged exactly when the outpoint or
the addr is already present, otherwise inserts the entry and returns true;
and any sequence of adds and removes keeps registry outpoints pairwise
distinct. -/
theorem add_unique_spec :
    (∀ (R : Registry) (mn : CMasternode),
      ((RegHas R mn.outpoint = true ∨ RegHasAddr R mn.addr = true) →
        RegAdd R mn = (false, R)) ∧
      (RegHas R mn.outpoint = false → RegHasAddr R mn.addr = false →
        (RegAdd R mn).1 = true ∧ mn ∈ (RegAdd R mn).2)) ∧
    ∀ ops : List RegOp, DistinctOutpoints (runRegOps ops) := by
  constructor
  · intro R mn
    constructor
    · intro h
      rcases h with h | h <;> simp [RegAdd, h]
    · intro h1 h2
      simp [RegAdd, h1, h2, mem_insertByOutpoint]
  · exact distinct_runRegOps

/-! ## Deterministic sorting

`std::sort` with a strict-weak comparator is embedded as a stable insertion
sort over the boolean reflexive comparator; wherever the comparator is a
total order on the data at hand (as it is for the distinct-keyed vectors the
manager sorts) the result is the unique sorted arrangement. -/

/-- Insert into a sorted list, before the first element not smaller. -/
def orderedInsertB {α : Type} (le : α → α → Bool) (a : α) : List α → List α
  | [] => [a]
  | b :: l => if le a b then a :: b :: l else b :: orderedInsertB le a l

/-- Stable insertion sort by a boolean comparator. -/
def sortB {α : Type} (le : α → α → Bool) : List α → List α
  | [] => []
  | a :: l => orderedInsertB le a (sortB le l)

theorem orderedInsertB_perm {α : Type} (le : α → α → Bool) (a : α) (l : List α) :
    (orderedInsertB le a l).Perm (a :: l) := by
  induction l with
  | nil => exact List.Perm.refl _
  | cons b l ih =>
    by_cases h : le a b
    · simp [orderedInsertB, h]
    · simp only [orderedInsertB, h, Bool.false_eq_true, if_false]
      exact (List.Perm.cons b ih).trans (List.Perm.swap a b l)

theorem sortB_perm {α : Type} (le : α → α → Bool) (l : List α) :
    (sortB le l).Perm l := by
  induction l with
  | nil => exact List.Perm.refl _
  | cons a l ih =>
    exact (orderedInsertB_perm le a (sortB le l)).trans (List.Perm.cons a ih)

theorem length_sortB {α : Type} (le : α → α → Bool) (l : List α) :
    (sortB le l).length = l.length :=
  (sortB_perm le l).length_eq

theorem mem_sortB {α : Type} {le : α → α → Bool} {a : α} {l : List α} :
    a ∈ sortB le l ↔ a ∈ l :=
  (sortB_perm le l).mem_iff

/-! ## Payment selection (`GetNextMasternodeInQueueForPayment`) -/

/-- External collaborators consumed by the payment-selection path
(masternodeman.cpp:636-710): sync state, payment scheduler, chain service
and the entry scoring function `CalculateScore` (entry code not under
`src/`; the spec specifies it only as a block-hash-seeded 256-bit score, so
it is passed in as an abstract function). -/
structure PayEnv where
  winnersSynced : Bool
  nMinProtocol : Int
  isValidForPayment : CMasternode → Bool
  isScheduled : CMasternode → Int → Bool
  utxoConfirmations : COutPoint → Int
  adjustedTime : Int
  blockHashAt : Int → Option Nat
  score : CMasternode → Nat → Nat

/-- `CMasternodeMan::CountMasternodes` at the default protocol argument:
count of entries with protocol at least the payment minimum. -/
def CountMasternodes (env : PayEnv) (R : Registry) : Nat :=
  (R.filter (fun mn => !(mn.nProtocolVersion < env.nMinProtocol))).length

/-- The candidate filter of `GetNextMasternodeInQueueForPayment`
(masternodeman.cpp:657-673).  The source writes the freshness window as
`nMnCount*2.6*60` seconds in floating point; `2.6*60` is written as the
exact integer 156 here. -/
def paymentCandidates (env : PayEnv) (R : Registry) (nBlockHeight : Int)
    (fFilterSigTime : Bool) (nMnCount : Nat) : List CMasternode :=
  R.filter (fun mn =>
    env.isValidForPayment mn &&
    !(mn.nProtocolVersion < env.nMinProtocol) &&
    !(env.isScheduled mn nBlockHeight) &&
    !(fFilterSigTime && decide (env.adjustedTime < mn.sigTime + (nMnCount : Int) * 156)) &&
    !(decide (env.utxoConfirmations mn.outpoint < (nMnCount : Int))))

/-- `CompareLastPaidBlock` as a total boolean order: ascending
`lastPaidBlock`, ties broken by outpoint. -/
def lastPaidLe (a b : CMasternode) : Bool :=
  a.lastPaidBlock < b.lastPaidBlock ||
  (a.lastPaidBlock == b.lastPaidBlock &&
    (COutPoint.ltb a.outpoint b.outpoint || a.outpoint == b.outpoint))

/-- The selection loop of masternodeman.cpp:695-705: scan the sorted
candidates tracking the strictly highest score, incrementing a counter and
breaking once it reaches `nTenthNetwork`.  The first candidate is always
examined before the break test. -/
def selectLoop (score : CMasternode → Nat) (nTenthNetwork : Nat) :
    List CMasternode → Nat → Nat × Option CMasternode → Nat × Option CMasternode
  | [], _, acc => acc
  | mn :: rest, cnt, acc =>
    let acc' := if acc.1 < score mn then (score mn, some mn) else acc
    let cnt' := cnt + 1
    if nTenthNetwork ≤ cnt' then acc' else selectLoop score nTenthNetwork rest cnt' acc'

/-- Body of `GetNextMasternodeInQueueForPayment` after the candidate list is
fixed: sort ascending by last paid block, resolve the block hash at
`nBlockHeight - 101`, then run the selection loop over the oldest tenth. -/
def getNextBody (env : PayEnv) (nBlockHeight : Int)
    (cands : List CMasternode) (nMnCount : Nat) : Nat × Option CMasternode :=
  let sorted := sortB lastPaidLe cands
  match env.blockHashAt (nBlockHeight - 101) with
  | none => (cands.length, none)
  | some blockHash =>
    let nTenthNetwork := nMnCount / 10
    (cands.length,
      (selectLoop (fun mn => env.score mn blockHash) nTenthNetwork sorted 0 (0, none)).2)

/-- `CMasternodeMan::GetNextMasternodeInQueueForPayment`
(masternodeman.cpp:636-710).  The single self-recursive retry with
`fFilterSigTime=false` is unfolded. -/
def GetNextMasternodeInQueueForPayment (env : PayEnv) (R : Registry)
    (nBlockHeight : Int) (fFilterSigTime : Bool) : Nat × Option CMasternode :=
  if env.winnersSynced = false then (0, none) else
  let nMnCount := CountMasternodes env R
  let cands := paymentCandidates env R nBlockHeight fFilterSigTime nMnCount
  if fFilterSigTime && cands.length < nMnCount / 3 then
    getNextBody env nBlockHeight (paymentCandidates env R nBlockHeight false nMnCount) nMnCount
  else getNextBody env nBlockHeight cands nMnCount

/-- Highest-score pick over a candidate window, written from the spec side:
fold keeping the strictly larger score, starting from score 0, so the first
candidate (in sorted order) attaining the maximum wins and a window whose
maximal score is 0 yields none. -/
def pickHighest (score : CMasternode → Nat) (l : List CMasternode) : Option CMasternode :=
  (l.foldl (fun acc mn => if acc.1 < score mn then (score mn, some mn) else acc)
    (0, none)).2

/-- The C2 claim read literally: only the oldest `count_total/10` sorted
candidates are considered. -/
def claimNextForPayment (env : PayEnv) (R : Registry) (nBlockHeight : Int)
    (fFilterSigTime : Bool) : Nat × Option CMasternode :=
  if env.winnersSynced = false then (0, none) else
  let nMnCount := CountMasternodes env R
  let cands0 := paymentCandidates env R nBlockHeight fFilterSigTime nMnCount
  let cands := if fFilterSigTime && cands0.length < nMnCount / 3 then
    paymentCandidates env R nBlockHeight false nMnCount else cands0
  match env.blockHashAt (nBlockHeight - 101) with
  | none => (cands.length, none)
  | some blockHash =>
    (cands.length,
      pickHighest (fun mn => env.score mn blockHash)
        ((sortB lastPaidLe cands).take (nMnCount / 10)))

/-- The amended C2 claim: the window always covers at least one candidate,
`max (count_total/10) 1`. -/
def amendedNextForPayment (env : PayEnv) (R : Registry) (nBlockHeight : Int)
    (fFilterSigTime : Bool) : Nat × Option CMasternode :=
  if env.winnersSynced = false then (0, none) else
  let nMnCount := CountMasternodes env R
  let cands0 := paymentCandidates env R nBlockHeight fFilterSigTime nMnCount
  let cands := if fFilterSigTime && cands0.length < nMnCount / 3 then
    paymentCandidates env R nBlockHeight false nMnCount else cands0
  match env.blockHashAt (nBlockHeight - 101) with
  | none => (cands.length, none)
  | some blockHash =>
    (cands.length,
      pickHighest (fun mn => env.score mn blockHash)
        ((sortB lastPaidLe cands).take (max (nMnCount / 10) 1)))

theorem selectLoop_eq_foldl_take (score : CMasternode → Nat) (nT : Nat) :
    ∀ (l : List CMasternode) (cnt : Nat) (acc : Nat × Option CMasternode),
      selectLoop score nT l cnt acc =
        ((l.take (max (nT - cnt) 1)).foldl
          (fun acc mn => if acc.1 < score mn then (score mn, some mn) else acc) acc) := by
  intro l
  induction l with
  | nil => intro cnt acc; simp [selectLoop]
  | cons mn rest ih =>
    intro cnt acc
    by_cases h : nT ≤ cnt + 1
    · have h1 : max (nT - cnt) 1 = 1 := by omega
      simp only [selectLoop, h, if_true, h1, List.take_succ_cons, List.take_zero,
        List.foldl_cons, List.foldl_nil]
    · have h1 : max (nT - cnt) 1 = Nat.succ (nT - cnt - 1) := by omega
      have h2 : max (nT - (cnt + 1)) 1 = nT - cnt - 1 := by omega
      simp only [selectLoop, h, if_false, ih (cnt + 1) _, h2, h1,
        List.take_succ_cons, List.foldl_cons]

theorem getNextBody_eq (env : PayEnv) (H : Int) (cands : List CMasternode)
    (nMnCount : Nat) :
    getNextBody env H cands nMnCount =
      match env.blockHashAt (H - 101) with
      | none => (cands.length, none)
      | some blockHash =>
        (cands.length,
          pickHighest (fun mn => env.score mn blockHash)
            ((sortB lastPaidLe cands).take (max (nMnCount / 10) 1))) := by
  unfold getNextBody
  cases env.blockHashAt (H - 101) with
  | none => rfl
  | some bh =>
    simp only [pickHighest, selectLoop_eq_foldl_take, Nat.sub_zero]

theorem getNext_eq_amended (env : PayEnv) (R : Registry) (H : Int) (f : Bool) :
    GetNextMasternodeInQueueForPayment env R H f = amendedNextForPayment env R H f := by
  unfold GetNextMasternodeInQueueForPayment amendedNextForPayment
  by_cases hs : env.winnersSynced = false
  · simp [hs]
  · rw [Bool.not_eq_false] at hs
    by_cases hf : (f && decide ((paymentCandidates env R H f (CountMasternodes env R)).length <
        CountMasternodes env R / 3)) = true
    · simp [hs, hf, getNextBody_eq]
    · rw [Bool.not_eq_true] at hf
      simp [hs, hf, getNextBody_eq]

/-- C2: the payment queue pipeline equals its spec-side description, with
the selection window amended from `count_total/10` to
`max (count_total/10) 1`: the loop always examines the first sorted
candidate before testing the break condition. -/
theorem nextForPayment_pipeline_spec (env : PayEnv) (R : Registry)
    (nBlockHeight : Int) (fFilterSigTime : Bool) :
    GetNextMasternodeInQueueForPayment env R nBlockHeight fFilterSigTime =
      amendedNextForPayment env R nBlockHeight fFilterSigTime :=
  getNext_eq_amended env R nBlockHeight fFilterSigTime

/-- A singleton registry entry used to exhibit the window defect. -/
def mnA : CMasternode :=
  { outpoint := ⟨1, 0⟩, addr := ⟨1, 1⟩, pubKeyCollateralAddress := 1,
    pubKeyMasternode := 1, sigTime := 0, nProtocolVersion := 1,
    nPoSeBanScore := 0, fPoSeVerified := false, nActiveState := MNState.enabled,
    lastPaidBlock := 0, lastPingSigTime := 0 }

/-- Payment environment for the window counterexample. -/
def payEnvA : PayEnv :=
  { winnersSynced := true, nMinProtocol := 0,
    isValidForPayment := fun _ => true, isScheduled := fun _ _ => false,
    utxoConfirmations := fun _ => 1000, adjustedTime := 0,
    blockHashAt := fun _ => some 7, score := fun mn _ => mn.outpoint.txid }

/-- C2 counterexample: with a single registered entry, `count_total/10 = 0`,
so the claim as stated selects among zero candidates and returns none, while
the code still examines (and returns) the first candidate. -/
theorem nextForPayment_window_counterexample :
    GetNextMasternodeInQueueForPayment payEnvA [mnA] 200 false ≠
      claimNextForPayment payEnvA [mnA] 200 false := by
  decide

/-- C3 (amended): with `count_total = 100` and 9 candidates the window
`floor(100/10) = 10` covers all of them, and the entry returned is the
highest-scoring one among all 9 — not necessarily the oldest-paid one. -/
theorem nextForPayment_nine_candidates (env : PayEnv) (R : Registry)
    (nBlockHeight : Int) (bh : Nat)
    (hsync : env.winnersSynced = true)
    (hcount : CountMasternodes env R = 100)
    (hlen : (paymentCandidates env R nBlockHeight false 100).length = 9)
    (hbh : env.blockHashAt (nBlockHeight - 101) = some bh) :
    GetNextMasternodeInQueueForPayment env R nBlockHeight false =
      (9, pickHighest (fun mn => env.score mn bh)
        (sortB lastPaidLe (paymentCandidates env R nBlockHeight false 100))) := by
  rw [getNext_eq_amended]
  unfold amendedNextForPayment
  have htake :
      (sortB lastPaidLe (paymentCandidates env R nBlockHeight false 100)).take 10 =
      sortB lastPaidLe (paymentCandidates env R nBlockHeight false 100) := by
    apply List.take_of_length_le
    rw [length_sortB, hlen]
    decide
  simp [hsync, hcount, hbh, htake, hlen]

/-- Entry family for the 100-masternode scenario: entry `i` has outpoint
txid `i+1`, last paid block `i`, and score `i+1`. -/
def mkPay (i : Nat) : CMasternode :=
  { outpoint := ⟨i + 1, 0⟩, addr := ⟨i + 1, 1⟩, pubKeyCollateralAddress := i,
    pubKeyMasternode := i, sigTime := 0, nProtocolVersion := 70000,
    nPoSeBanScore := 0, fPoSeVerified := false, nActiveState := MNState.enabled,
    lastPaidBlock := (i : Int), lastPingSigTime := 0 }

/-- A registry of 100 entries. -/
def reg100 : Registry := (List.range 100).map mkPay

/-- Payment environment for the 100-entry scenario: exactly the 9 entries
with txid at most 9 pass the eligibility filters, and the score of an entry
is its txid. -/
def payEnv100 : PayEnv :=
  { winnersSynced := true, nMinProtocol := 70000,
    isValidForPayment := fun mn => decide (mn.outpoint.txid ≤ 9),
    isScheduled := fun _ _ => false,
    utxoConfirmations := fun _ => 100000, adjustedTime := 0,
    blockHashAt := fun _ => some 7, score := fun mn _ => mn.outpoint.txid }

/-- C3 counterexample: `count_total = 100`, exactly 9 candidates, yet the
entry returned is `mkPay 8` (the highest-scoring candidate) although
candidate `mkPay 0` has a strictly older last paid block. -/
theorem nextForPayment_oldest_counterexample :
    CountMasternodes payEnv100 reg100 = 100 ∧
    (paymentCandidates payEnv100 reg100 300 false 100).length = 9 ∧
    mkPay 0 ∈ paymentCandidates payEnv100 reg100 300 false 100 ∧
    (GetNextMasternodeInQueueForPayment payEnv100 reg100 300 false).2 = some (mkPay 8) ∧
    (mkPay 0).lastPaidBlock < (mkPay 8).lastPaidBlock := by
  decide

/-- Witness for `nextForPayment_nine_candidates` at the concrete 100-entry
scenario. -/
theorem nextForPayment_nine_candidates_witness :
    (payEnv100.winnersSynced = true ∧
     CountMasternodes payEnv100 reg100 = 100 ∧
     (paymentCandidates payEnv100 reg100 300 false 100).length = 9 ∧
     payEnv100.blockHashAt (300 - 101) = some 7) ∧
    GetNextMasternodeInQueueForPayment payEnv100 reg100 300 false =
      (9, pickHighest (fun mn => payEnv100.score mn 7)
        (sortB lastPaidLe (paymentCandidates payEnv100 reg100 300 false 100))) :=
  ⟨⟨rfl, by decide, by decide, rfl⟩,
    nextForPayment_nine_candidates payEnv100 reg100 300 7 rfl (by decide) (by decide) rfl⟩

/-- Witness for `add_unique_spec`: adding an entry whose outpoint is already
present fails and leaves the registry unchanged, and a two-operation run
keeps outpoints distinct. -/
theorem add_unique_spec_witness :
    RegAdd [mnA] mnA = (false, [mnA]) ∧
    DistinctOutpoints (runRegOps [RegOp.add mnA, RegOp.add mnA]) :=
  ⟨(add_unique_spec.1 [mnA] mnA).1 (Or.inl (by decide)),
    add_unique_spec.2 [RegOp.add mnA, RegOp.add mnA]⟩

/-! ## Scoring and ranking (`GetMasternodeScores`, `GetMasternodeRank`) -/

/-- External collaborators of the ranking path: list-sync state, the chain
service and the entry scoring function. -/
structure RankEnv where
  listSynced : Bool
  blockHashAt : Int → Option Nat
  score : CMasternode → Nat → Nat

/-- `CompareScoreMN` composed with the reverse-iterator sort of
masternodeman.cpp:774: in forward order the vector is descending
lexicographically by (score, outpoint). -/
def scoreDescLe (a b : Nat × CMasternode) : Bool :=
  b.1 < a.1 || (b.1 == a.1 &&
    (COutPoint.ltb b.2.outpoint a.2.outpoint || b.2.outpoint == a.2.outpoint))

/-- `CMasternodeMan::GetMasternodeScores` (masternodeman.cpp:755-776):
score every entry with sufficient protocol at the given block hash and sort
descending; fails when the list is not synced or no entry qualifies. -/
def GetMasternodeScores (env : RankEnv) (R : Registry) (nBlockHash : Nat)
    (nMinProtocol : Int) : Option (List (Nat × CMasternode)) :=
  if env.listSynced = false then none
  else if R.isEmpty then none
  else
    let vec := sortB scoreDescLe
      ((R.filter (fun mn => nMinProtocol ≤ mn.nProtocolVersion)).map
        (fun mn => (env.score mn nBlockHash, mn)))
    if vec.isEmpty then none else some vec

/-- The rank loop of masternodeman.cpp:798-805: 1-based position of the
first score pair carrying the requested outpoint. -/
def rankScan (outpoint : COutPoint) : List (Nat × CMasternode) → Nat → Option Nat
  | [], _ => none
  | p :: rest, nRank =>
    if p.2.outpoint == outpoint then some (nRank + 1)
    else rankScan outpoint rest (nRank + 1)

/-- `CMasternodeMan::GetMasternodeRank` (masternodeman.cpp:778-808). -/
def GetMasternodeRank (env : RankEnv) (R : Registry) (outpoint : COutPoint)
    (nBlockHeight : Int) (nMinProtocol : Int) : Option Nat :=
  if env.listSynced = false then none else
  match env.blockHashAt nBlockHeight with
  | none => none
  | some bh =>
    match GetMasternodeScores env R bh nMinProtocol with
    | none => none
    | some vec => rankScan outpoint vec 0

theorem rankScan_first {o : COutPoint} :
    ∀ (l : List (Nat × CMasternode)) (base : Nat),
      l.Pairwise (fun a b => a.2.outpoint ≠ b.2.outpoint) →
      ∀ p ∈ l, p.2.outpoint = o →
      ∃ k, rankScan o l base = some (base + k + 1) ∧ l.get? k = some p := by
  intro l
  induction l with
  | nil => intro base _ p hp; exact absurd hp (List.not_mem_nil p)
  | cons q rest ih =>
    intro base hpw p hp ho
    rcases hpw with _ | ⟨hq, hrest⟩
    rcases List.mem_cons.mp hp with hp | hp
    · subst hp
      refine ⟨0, ?_, rfl⟩
      simp [rankScan, ho]
    · have hqo : q.2.outpoint ≠ o := fun e => hq p hp (e.trans ho.symm)
      obtain ⟨k, hk1, hk2⟩ := ih (base + 1) hrest p hp ho
      refine ⟨k + 1, ?_, hk2⟩
      have : (q.2.outpoint == o) = false := by
        simp [hqo]
      simp only [rankScan, this, Bool.false_eq_true, if_false]
      rw [hk1]
      congr 1
      omega

/-- C4: for a synced list and a known block hash, the rank of an entry with
sufficient protocol is its 1-based position in the descending score vector;
when the list is not synced or the block hash is unknown the rank is
unavailable. -/
theorem rank_is_position (env : RankEnv) (R : Registry) (o : COutPoint)
    (nBlockHeight : Int) (nMinProtocol : Int) :
    ((env.listSynced = false ∨ env.blockHashAt nBlockHeight = none) →
      GetMasternodeRank env R o nBlockHeight nMinProtocol = none) ∧
    (∀ mn bh, env.listSynced = true → env.blockHashAt nBlockHeight = some bh →
      DistinctOutpoints R → mn ∈ R → nMinProtocol ≤ mn.nProtocolVersion →
      mn.outpoint = o →
      ∃ k, GetMasternodeRank env R o nBlockHeight nMinProtocol = some (k + 1) ∧
        (sortB scoreDescLe
          ((R.filter (fun x => nMinProtocol ≤ x.nProtocolVersion)).map
            (fun x => (env.score x bh, x)))).get? k = some (env.score mn bh, mn)) := by
  constructor
  · intro h
    rcases h with h | h <;> simp [GetMasternodeRank, h]
  · intro mn bh hsync hbh hdist hmem hproto ho
    set vec := sortB scoreDescLe
      ((R.filter (fun x => nMinProtocol ≤ x.nProtocolVersion)).map
        (fun x => (env.score x bh, x))) with hvec
    have hmemf : mn ∈ R.filter (fun x => nMinProtocol ≤ x.nProtocolVersion) := by
      rw [List.mem_filter]
      exact ⟨hmem, by simpa using hproto⟩
    have hmemv : (env.score mn bh, mn) ∈ vec := by
      rw [hvec, mem_sortB]
      exact List.mem_map_of_mem _ hmemf
    have hdistv : vec.Pairwise (fun a b => a.2.outpoint ≠ b.2.outpoint) := by
      have h1 : (R.filter (fun x => nMinProtocol ≤ x.nProtocolVersion)).Pairwise
          (fun a b => a.outpoint ≠ b.outpoint) :=
        List.Pairwise.sublist (List.filter_sublist R) hdist
      have h2 : ((R.filter (fun x => nMinProtocol ≤ x.nProtocolVersion)).map
          (fun x => (env.score x bh, x))).Pairwise
          (fun a b => a.2.outpoint ≠ b.2.outpoint) := by
        rw [List.pairwise_map]
        exact h1
      exact ((sortB_perm scoreDescLe _).pairwise_iff
        (fun h => Ne.symm h)).mpr h2
    have hR : R.isEmpty = false := by
      cases R with
      | nil => exact absurd hmem (List.not_mem_nil mn)
      | cons a l => rfl
    have hv : vec.isEmpty = false := by
      cases hvx : vec with
      | nil => rw [hvx] at hmemv; exact absurd hmemv (List.not_mem_nil _)
      | cons a l => rfl
    obtain ⟨k, hk1, hk2⟩ := rankScan_first vec 0 hdistv (env.score mn bh, mn) hmemv ho
    refine ⟨k, ?_, hk2⟩
    simp only [GetMasternodeRank, hsync, Bool.true_eq_false, if_false, hbh,
      GetMasternodeScores, hR, ← hvec, hv, Bool.false_eq_true]
    simpa using hk1

/-! ## Manager-level PoSe scoring operations (masternodeman.cpp:199-278) -/

/-- The null outpoint: `COutPoint()` has a zero hash and index `(uint32_t)-1`. -/
def nullOutpoint : COutPoint := ⟨0, 4294967295⟩

/-- Whether an outpoint is the null outpoint (`COutPoint::IsNull`). -/
def COutPoint.isNull (o : COutPoint) : Bool := o == nullOutpoint

/-- The active-self identity (`activeMasternode`): own collateral outpoint
and own service address. -/
structure ActiveSelf where
  outpoint : COutPoint
  service : CService

/-- `CMasternodeMan::Find`: the map node for an outpoint. -/
def RegFind (R : Registry) (o : COutPoint) : Option CMasternode :=
  R.find? (fun mn => mn.outpoint == o)

/-- In-place mutation of the map node holding an outpoint (the effect of
writing through the pointer returned by `Find`). -/
def RegUpdateFirst (f : CMasternode → CMasternode) (o : COutPoint) : Registry → Registry
  | [] => []
  | mn :: rest =>
    if mn.outpoint == o then f mn :: rest else mn :: RegUpdateFirst f o rest

/-- `CMasternodeMan::IncreasePoSeBanScore(outpoint)` (masternodeman.cpp:199-211). -/
def ManIncreasePoSeBanScore (active : ActiveSelf) (R : Registry) (o : COutPoint) :
    Bool × Registry :=
  if o == active.outpoint then (false, R)
  else if (RegFind R o).isSome then
    (true, RegUpdateFirst CMasternode.IncreasePoSeBanScore o R)
  else (false, R)

/-- `CMasternodeMan::DecreasePoSeBanScore(outpoint)` (masternodeman.cpp:213-225). -/
def ManDecreasePoSeBanScore (active : ActiveSelf) (R : Registry) (o : COutPoint) :
    Bool × Registry :=
  if o == active.outpoint then (false, R)
  else if (RegFind R o).isSome then
    (true, RegUpdateFirst CMasternode.DecreasePoSeBanScore o R)
  else (false, R)

/-- `CMasternodeMan::PoSeBan(outpoint)` (masternodeman.cpp:227-239). -/
def ManPoSeBan (active : ActiveSelf) (R : Registry) (o : COutPoint) :
    Bool × Registry :=
  if o == active.outpoint then (false, R)
  else if (RegFind R o).isSome then
    (true, RegUpdateFirst CMasternode.PoSeBan o R)
  else (false, R)

/-- `CMasternodeMan::IncreasePoSeBanScore(addr)` (masternodeman.cpp:241-252):
delegate to the outpoint form at the first entry carrying the addr. -/
def ManIncreasePoSeBanScoreAddr (active : ActiveSelf) (R : Registry) (a : CService) :
    Bool × Registry :=
  if a == active.service then (false, R)
  else match R.find? (fun mn => mn.addr == a) with
    | none => (false, R)
    | some mn => ManIncreasePoSeBanScore active R mn.outpoint

/-- `CMasternodeMan::DecreasePoSeBanScore(addr)` (masternodeman.cpp:254-265). -/
def ManDecreasePoSeBanScoreAddr (active : ActiveSelf) (R : Registry) (a : CService) :
    Bool × Registry :=
  if a == active.service then (false, R)
  else match R.find? (fun mn => mn.addr == a) with
    | none => (false, R)
    | some mn => ManDecreasePoSeBanScore active R mn.outpoint

/-- `CMasternodeMan::PoSeBan(addr)` (masternodeman.cpp:267-278). -/
def ManPoSeBanAddr (active : ActiveSelf) (R : Registry) (a : CService) :
    Bool × Registry :=
  if a == active.service then (false, R)
  else match R.find? (fun mn => mn.addr == a) with
    | none => (false, R)
    | some mn => ManPoSeBan active R mn.outpoint

/-- C10: each of the six PoSe scoring operations refuses its own node:
called on the active outpoint (or, for the addr forms, the active service
address) it returns false and leaves the registry untouched. -/
theorem pose_ops_never_target_self (active : ActiveSelf) (R : Registry) :
    ManIncreasePoSeBanScore active R active.outpoint = (false, R) ∧
    ManDecreasePoSeBanScore active R active.outpoint = (false, R) ∧
    ManPoSeBan active R active.outpoint = (false, R) ∧
    ManIncreasePoSeBanScoreAddr active R active.service = (false, R) ∧
    ManDecreasePoSeBanScoreAddr active R active.service = (false, R) ∧
    ManPoSeBanAddr active R active.service = (false, R) := by
  refine ⟨?_, ?_, ?_, ?_, ?_, ?_⟩ <;>
    simp [ManIncreasePoSeBanScore, ManDecreasePoSeBanScore, ManPoSeBan,
      ManIncreasePoSeBanScoreAddr, ManDecreasePoSeBanScoreAddr, ManPoSeBanAddr]

/-! ## Verification messages and `ProcessVerifyReply` -/

/-- A `VERIFY` message (`CMasternodeVerification`); the signature blobs are
embedded as opaque naturals (0 for an empty signature). -/
structure CMasternodeVerification where
  addr : CService
  nonce : Nat
  nBlockHeight : Int
  vchSig1 : Nat
  vchSig2 : Nat
  masternodeOutpoint1 : COutPoint
  masternodeOutpoint2 : COutPoint
deriving DecidableEq

/-- External collaborators of `ProcessVerifyReply` (masternodeman.cpp:
1541-1687): the replying peer, the fulfilled-request flags, the stored
request (`mWeAskedForVerification[peer]`, which `operator[]`
default-constructs when absent), the chain service, the signature check for
`vchSig1` against a service pubkey (covering both spork signing variants),
and the outcome of signing `vchSig2` locally. -/
structure VerifyReplyEnv where
  active : ActiveSelf
  peerAddr : CService
  fulfilledRequest : Bool
  fulfilledDone : Bool
  askedNonce : Nat
  askedHeight : Int
  blockHashAt : Int → Option Nat
  verifySig1 : Nat → Bool
  signOk : Bool

/-- The scan of masternodeman.cpp:1601-1662 over the registry: for each
entry at the peer address, check `vchSig1` against its service key; a match
is the real masternode and its ban score is decreased (unless PoSe-verified
already); if we are an active masternode, a failed attempt to counter-sign
aborts the whole handler (the C++ `return` inside the loop); entries at the
address failing the check are collected (by position) for banning.
Returns (new entries, found-real, ban positions, aborted). -/
def pvrLoop (env : VerifyReplyEnv) : Registry → Registry × Bool × List Nat × Bool
  | [] => ([], false, [], false)
  | mn :: rest =>
    if mn.addr == env.peerAddr then
      if env.verifySig1 mn.pubKeyMasternode then
        let mn1 := if mn.fPoSeVerified then mn else mn.DecreasePoSeBanScore
        if env.active.outpoint.isNull || env.signOk then
          let r := pvrLoop env rest
          (mn1 :: r.1, true, r.2.2.1.map (· + 1), r.2.2.2)
        else
          (mn1 :: rest, true, [], true)
      else
        let r := pvrLoop env rest
        (mn :: r.1, r.2.1, 0 :: r.2.2.1.map (· + 1), r.2.2.2)
    else
      let r := pvrLoop env rest
      (mn :: r.1, r.2.1, r.2.2.1.map (· + 1), r.2.2.2)

/-- Positional mutation of a registry entry (pointer write at an index). -/
def modifyIdx (f : CMasternode → CMasternode) : Nat → Registry → Registry
  | _, [] => []
  | 0, x :: xs => f x :: xs
  | i + 1, x :: xs => x :: modifyIdx f i xs

/-- Application of the post-loop ban sweep of masternodeman.cpp:1678-1682:
increase the ban score of every collected position. -/
def applyBanIdx (idxs : List Nat) (l : Registry) : Registry :=
  idxs.foldl (fun acc i => modifyIdx CMasternode.IncreasePoSeBanScore i acc) l

/-- `CMasternodeMan::ProcessVerifyReply` (masternodeman.cpp:1541-1687),
returning the new registry together with the misbehaviour scores charged to
the peer.  The nonce / height mismatch paths call the addr form of
`IncreasePoSeBanScore`; the un-asked path and the duplicate-done path charge
2; a reply with no real masternode found charges 40. -/
def ProcessVerifyReply (env : VerifyReplyEnv) (R : Registry)
    (mnv : CMasternodeVerification) : Registry × List Nat :=
  if env.fulfilledRequest = false then (R, [2]) else
  if env.askedNonce ≠ mnv.nonce then
    ((ManIncreasePoSeBanScoreAddr env.active R env.peerAddr).2, [20]) else
  if env.askedHeight ≠ mnv.nBlockHeight then
    ((ManIncreasePoSeBanScoreAddr env.active R env.peerAddr).2, [20]) else
  match env.blockHashAt mnv.nBlockHeight with
  | none => (R, [])
  | some _ =>
    let mis0 := if env.fulfilledDone then [2] else []
    let r := pvrLoop env R
    if r.2.2.2 then (r.1, mis0)
    else
      let mis1 := if r.2.1 then mis0 else mis0 ++ [40]
      (applyBanIdx r.2.2.1 r.1, mis1)

theorem modifyIdx_get_ne (f : CMasternode → CMasternode) :
    ∀ (l : Registry) {i j : Nat}, i ≠ j → (modifyIdx f j l).get? i = l.get? i := by
  intro l
  induction l with
  | nil => intro i j _; cases j <;> rfl
  | cons x xs ih =>
    intro i j hij
    cases j with
    | zero =>
      cases i with
      | zero => exact absurd rfl hij
      | succ i => rfl
    | succ j =>
      cases i with
      | zero => rfl
      | succ i =>
        simp only [modifyIdx, List.get?_cons_succ]
        exact ih (fun e => hij (by rw [e]))

theorem applyBanIdx_get_ne :
    ∀ (idxs : List Nat) (l : Registry) (i : Nat), (∀ j ∈ idxs, j ≠ i) →
      (applyBanIdx idxs l).get? i = l.get? i := by
  intro idxs
  induction idxs with
  | nil => intro l i _; rfl
  | cons j js ih =>
    intro l i h
    have hji : i ≠ j := fun e => h j (by simp) e.symm
    calc (applyBanIdx (j :: js) l).get? i
        = (applyBanIdx js (modifyIdx CMasternode.IncreasePoSeBanScore j l)).get? i := rfl
      _ = (modifyIdx CMasternode.IncreasePoSeBanScore j l).get? i :=
          ih _ i (fun k hk => h k (by simp [hk]))
      _ = l.get? i := modifyIdx_get_ne _ l hji

theorem pvrLoop_first_match (env : VerifyReplyEnv) (mn : CMasternode)
    (hmn : mn.addr = env.peerAddr) (hsig : env.verifySig1 mn.pubKeyMasternode = true) :
    ∀ (pre post : Registry),
      (∀ x ∈ pre, x.addr = env.peerAddr → env.verifySig1 x.pubKeyMasternode = false) →
      (pvrLoop env (pre ++ mn :: post)).1.get? pre.length =
        some (if mn.fPoSeVerified then mn else mn.DecreasePoSeBanScore) ∧
      ∀ i ∈ (pvrLoop env (pre ++ mn :: post)).2.2.1, i ≠ pre.length := by
  intro pre
  induction pre with
  | nil =>
    intro post _
    have haddr : (mn.addr == env.peerAddr) = true := by simp [hmn]
    by_cases hgo : (env.active.outpoint.isNull || env.signOk) = true
    · constructor
      · simp [pvrLoop, haddr, hsig, hgo]
      · intro i hi
        simp only [List.nil_append, pvrLoop, haddr, hsig, hgo] at hi
        simp only [if_true, List.mem_map] at hi
        obtain ⟨j, _, hj⟩ := hi
        simp only [List.length_nil]
        omega
    · rw [Bool.not_eq_true] at hgo
      constructor
      · simp [pvrLoop, haddr, hsig, hgo]
      · intro i hi
        simp [pvrLoop, haddr, hsig, hgo] at hi
  | cons x pre ih =>
    intro post hpre
    have hx := hpre x (by simp)
    obtain ⟨ih1, ih2⟩ := ih post (fun y hy => hpre y (by simp [hy]))
    by_cases hxa : (x.addr == env.peerAddr) = true
    · have hxs : env.verifySig1 x.pubKeyMasternode = false := hx (by simpa using hxa)
      constructor
      · simp only [List.cons_append, pvrLoop, hxa, hxs, Bool.false_eq_true, if_false,
          if_true, List.length_cons, List.get?_cons_succ]
        exact ih1
      · intro i hi
        simp only [List.cons_append, pvrLoop, hxa, hxs, Bool.false_eq_true, if_false,
          if_true, List.mem_cons, List.mem_map] at hi
        rcases hi with hi | ⟨j, hj, hj2⟩
        · subst hi; simp
        · have := ih2 j hj
          simp only [List.length_cons]
          omega
    · constructor
      · simp only [List.cons_append, pvrLoop, hxa, Bool.false_eq_true, if_false,
          List.length_cons, List.get?_cons_succ]
        exact ih1
      · intro i hi
        simp only [List.cons_append, pvrLoop, hxa, Bool.false_eq_true, if_false,
          List.mem_map] at hi
        obtain ⟨j, hj, hj2⟩ := hi
        have := ih2 j hj
        simp only [List.length_cons]
        omega

/-- C5: a VERIFY reply with matching nonce and block height, whose `sig1`
verifies under the service pubkey of some registry entry at the replying
peer address: the first such entry keeps all fields except that its PoSe
ban score drops by exactly one, unless it is already PoSe-verified or
already 0, in which case it is unchanged. -/
theorem verify_reply_decreases_real (env : VerifyReplyEnv) (pre post : Registry)
    (mn : CMasternode) (mnv : CMasternodeVerification)
    (hreq : env.fulfilledRequest = true)
    (hnonce : env.askedNonce = mnv.nonce)
    (hheight : env.askedHeight = mnv.nBlockHeight)
    (hbh : (env.blockHashAt mnv.nBlockHeight).isSome = true)
    (hpre : ∀ x ∈ pre, x.addr = env.peerAddr → env.verifySig1 x.pubKeyMasternode = false)
    (hmn : mn.addr = env.peerAddr) (hsig : env.verifySig1 mn.pubKeyMasternode = true)
    (hsc : 0 ≤ mn.nPoSeBanScore) :
    (ProcessVerifyReply env (pre ++ mn :: post) mnv).1.get? pre.length =
      some { mn with nPoSeBanScore :=
        if mn.fPoSeVerified = true ∨ mn.nPoSeBanScore = 0 then mn.nPoSeBanScore
        else mn.nPoSeBanScore - 1 } := by
  obtain ⟨bh, hbh'⟩ := Option.isSome_iff_exists.mp hbh
  obtain ⟨h1, h2⟩ := pvrLoop_first_match env mn hmn hsig pre post hpre
  have hres : { mn with nPoSeBanScore :=
      if mn.fPoSeVerified = true ∨ mn.nPoSeBanScore = 0 then mn.nPoSeBanScore
      else mn.nPoSeBanScore - 1 } =
      (if mn.fPoSeVerified then mn else mn.DecreasePoSeBanScore) := by
    by_cases hv : mn.fPoSeVerified = true
    · rw [if_pos (Or.inl hv), if_pos hv]
    · rw [if_neg hv]
      unfold CMasternode.DecreasePoSeBanScore
      by_cases h0 : mn.nPoSeBanScore = 0
      · rw [if_pos (Or.inr h0), if_neg (by omega)]
      · rw [if_neg (by tauto), if_pos (by omega)]
  rw [hres]
  unfold ProcessVerifyReply
  simp only [hreq, Bool.true_eq_false, if_false, hnonce, ne_eq, not_true_eq_false,
    hheight, hbh']
  by_cases hab : (pvrLoop env (pre ++ mn :: post)).2.2.2 = true
  · simp only [hab, if_true]
    exact h1
  · rw [Bool.not_eq_true] at hab
    simp only [hab, Bool.false_eq_true, if_false]
    rw [applyBanIdx_get_ne _ _ _ (fun j hj => h2 j hj)]
    exact h1

/-- A second sample entry, at a distinct outpoint and address. -/
def mnB : CMasternode :=
  { outpoint := ⟨2, 0⟩, addr := ⟨2, 1⟩, pubKeyCollateralAddress := 2,
    pubKeyMasternode := 2, sigTime := 0, nProtocolVersion := 1,
    nPoSeBanScore := 3, fPoSeVerified := false, nActiveState := MNState.enabled,
    lastPaidBlock := 1, lastPingSigTime := 0 }

/-- Ranking environment for the witnesses. -/
def rankEnvW : RankEnv :=
  { listSynced := true, blockHashAt := fun _ => some 7,
    score := fun mn _ => mn.outpoint.txid }

/-- Witness for `rank_is_position` on a concrete two-entry registry. -/
theorem rank_is_position_witness :
    (rankEnvW.listSynced = true ∧ rankEnvW.blockHashAt 100 = some 7 ∧
      DistinctOutpoints [mnA, mnB] ∧ mnA ∈ [mnA, mnB] ∧
      (0 : Int) ≤ mnA.nProtocolVersion) ∧
    (∃ k, GetMasternodeRank rankEnvW [mnA, mnB] mnA.outpoint 100 0 = some (k + 1) ∧
      (sortB scoreDescLe (([mnA, mnB].filter
        (fun x => (0 : Int) ≤ x.nProtocolVersion)).map
        (fun x => (rankEnvW.score x 7, x)))).get? k = some (rankEnvW.score mnA 7, mnA)) :=
  ⟨⟨rfl, rfl, by unfold DistinctOutpoints; decide, by decide, by decide⟩,
    (rank_is_position rankEnvW [mnA, mnB] mnA.outpoint 100 0).2 mnA 7 rfl rfl
      (by unfold DistinctOutpoints; decide) (by decide) (by decide) rfl⟩

/-- Reply environment for the C5 witness: the peer is at `mnB.addr` and only
`mnB.pubKeyMasternode` verifies `sig1`. -/
def vrEnvW : VerifyReplyEnv :=
  { active := ⟨⟨9, 9⟩, ⟨9, 9⟩⟩, peerAddr := ⟨2, 1⟩,
    fulfilledRequest := true, fulfilledDone := false,
    askedNonce := 5, askedHeight := 50,
    blockHashAt := fun _ => some 7,
    verifySig1 := fun pk => pk == 2, signOk := true }

/-- A concrete reply message matching the outstanding request. -/
def mnvW : CMasternodeVerification :=
  { addr := ⟨2, 1⟩, nonce := 5, nBlockHeight := 50, vchSig1 := 1, vchSig2 := 0,
    masternodeOutpoint1 := ⟨2, 0⟩, masternodeOutpoint2 := ⟨9, 9⟩ }

/-- Witness for `verify_reply_decreases_real`: processing the reply drops
`mnB` from ban score 3 to 2. -/
theorem verify_reply_decreases_real_witness :
    (vrEnvW.fulfilledRequest = true ∧ vrEnvW.askedNonce = mnvW.nonce ∧
     vrEnvW.askedHeight = mnvW.nBlockHeight ∧
     (vrEnvW.blockHashAt mnvW.nBlockHeight).isSome = true ∧
     mnB.addr = vrEnvW.peerAddr ∧ vrEnvW.verifySig1 mnB.pubKeyMasternode = true ∧
     (0 : Int) ≤ mnB.nPoSeBanScore) ∧
    (ProcessVerifyReply vrEnvW ([mnA] ++ mnB :: []) mnvW).1.get? [mnA].length =
      some { mnB with nPoSeBanScore :=
        if mnB.fPoSeVerified = true ∨ mnB.nPoSeBanScore = 0 then mnB.nPoSeBanScore
        else mnB.nPoSeBanScore - 1 } :=
  ⟨⟨rfl, rfl, rfl, rfl, by decide, by decide, by decide⟩,
    verify_reply_decreases_real vrEnvW [mnA] [] mnB mnvW rfl rfl rfl rfl
      (by decide) (by decide) (by decide) (by decide)⟩

/-! ## `ProcessVerifyBroadcast` (masternodeman.cpp:1689-1816) -/

/-- Modelled from the spec: `MAX_POSE_BLOCKS` is a config constant declared
in a header not under `src/`; the customary value is 10. -/
def MAX_POSE_BLOCKS : Int := 10

/-- Modelled from the spec: `MAX_POSE_RANK`, config constant (value 10). -/
def MAX_POSE_RANK : Nat := 10

/-- Modelled from the spec: `MIN_POSE_PROTO_VERSION`, the minimum protocol
for PoSe participation (header not under `src/`). -/
def MIN_POSE_PROTO_VERSION : Int := 70213

/-- External collaborators of `ProcessVerifyBroadcast`: tip height, sync
state, chain service, scoring, and the two signature checks for the fixed
message (each a function of the service pubkey it is checked against,
covering both spork signing variants). -/
structure VerifyBroadcastEnv where
  tipHeight : Int
  listSynced : Bool
  blockHashAt : Int → Option Nat
  score : CMasternode → Nat → Nat
  verifySig1 : Nat → Bool
  verifySig2 : Nat → Bool

/-- The seen-verification cache, keyed by the message hash; the serialized
message determines the hash, so the message itself stands for its key. -/
abbrev SeenMnv := List CMasternodeVerification

/-- `CMasternodeMan::ProcessVerifyBroadcast` (masternodeman.cpp:1689-1816).
Returns (seen cache, registry, misbehaviour scores, relayed flag). -/
def ProcessVerifyBroadcast (env : VerifyBroadcastEnv) (R : Registry)
    (seen : SeenMnv) (mnv : CMasternodeVerification) :
    SeenMnv × Registry × List Nat × Bool :=
  if mnv ∈ seen then (seen, R, [], false) else
  let seen1 := mnv :: seen
  if mnv.nBlockHeight < env.tipHeight - MAX_POSE_BLOCKS then (seen1, R, [], false) else
  if mnv.masternodeOutpoint1 == mnv.masternodeOutpoint2 then (seen1, R, [100], false) else
  match env.blockHashAt mnv.nBlockHeight with
  | none => (seen1, R, [], false)
  | some _ =>
    match GetMasternodeRank ⟨env.listSynced, env.blockHashAt, env.score⟩ R
        mnv.masternodeOutpoint2 mnv.nBlockHeight MIN_POSE_PROTO_VERSION with
    | none => (seen1, R, [], false)
    | some nRank =>
      if MAX_POSE_RANK < nRank then (seen1, R, [], false) else
      match RegFind R mnv.masternodeOutpoint1 with
      | none => (seen1, R, [], false)
      | some pmn1 =>
        match RegFind R mnv.masternodeOutpoint2 with
        | none => (seen1, R, [], false)
        | some pmn2 =>
          if pmn1.addr ≠ mnv.addr then (seen1, R, [20], false) else
          if env.verifySig1 pmn1.pubKeyMasternode = false then (seen1, R, [], false) else
          if env.verifySig2 pmn2.pubKeyMasternode = false then (seen1, R, [], false) else
          let R1 := if pmn1.fPoSeVerified then R
            else RegUpdateFirst CMasternode.DecreasePoSeBanScore mnv.masternodeOutpoint1 R
          let R2 := R1.map (fun mn =>
            if mn.addr == mnv.addr && !(mn.outpoint == mnv.masternodeOutpoint1)
            then mn.IncreasePoSeBanScore else mn)
          (seen1, R2, [], true)

/-- C6 (amended): a self-verify broadcast (`outpoint1 = outpoint2`) that is
not a duplicate and not stale charges `misbehaving(100)`, mutates no
registry entry and relays nothing; the message hash is recorded as seen. -/
theorem verify_broadcast_self_fresh (env : VerifyBroadcastEnv) (R : Registry)
    (seen : SeenMnv) (mnv : CMasternodeVerification)
    (hseen : mnv ∉ seen)
    (hstale : ¬(mnv.nBlockHeight < env.tipHeight - MAX_POSE_BLOCKS))
    (hself : mnv.masternodeOutpoint1 = mnv.masternodeOutpoint2) :
    ProcessVerifyBroadcast env R seen mnv = (mnv :: seen, R, [100], false) := by
  have hb : (mnv.masternodeOutpoint1 == mnv.masternodeOutpoint2) = true := by
    simp [hself]
  simp [ProcessVerifyBroadcast, hseen, hstale, hb]

/-- The self-verify message for the C6 counterexample. -/
def mnvSelf : CMasternodeVerification :=
  { addr := ⟨2, 1⟩, nonce := 5, nBlockHeight := 50, vchSig1 := 1, vchSig2 := 1,
    masternodeOutpoint1 := ⟨2, 0⟩, masternodeOutpoint2 := ⟨2, 0⟩ }

/-- Broadcast environment for the C6 counterexample. -/
def vbEnvC : VerifyBroadcastEnv :=
  { tipHeight := 55, listSynced := true, blockHashAt := fun _ => some 7,
    score := fun mn _ => mn.outpoint.txid,
    verifySig1 := fun _ => true, verifySig2 := fun _ => true }

/-- C6 counterexample: the same self-verify broadcast received a second time
(hash already in the seen cache) produces no misbehaviour charge at all, so
`misbehaving(+100)` does not happen for every such broadcast. -/
theorem verify_broadcast_self_counterexample :
    mnvSelf.masternodeOutpoint1 = mnvSelf.masternodeOutpoint2 ∧
    (ProcessVerifyBroadcast vbEnvC [mnB] [mnvSelf] mnvSelf).2.2.1 = [] := by
  decide

/-- Witness for `verify_broadcast_self_fresh` at a fresh cache. -/
theorem verify_broadcast_self_fresh_witness :
    (mnvSelf ∉ ([] : SeenMnv) ∧
     ¬(mnvSelf.nBlockHeight < vbEnvC.tipHeight - MAX_POSE_BLOCKS) ∧
     mnvSelf.masternodeOutpoint1 = mnvSelf.masternodeOutpoint2) ∧
    ProcessVerifyBroadcast vbEnvC [mnB] [] mnvSelf = ([mnvSelf], [mnB], [100], false) :=
  ⟨⟨by decide, by decide, by decide⟩,
    verify_broadcast_self_fresh vbEnvC [mnB] [] mnvSelf
      (by decide) (by decide) (by decide)⟩

/-! ## Broadcasts, the seen cache and `CheckMnbAndUpdateMasternodeList` -/

/-- An announcement (`CMasternodeBroadcast`), which in the source inherits
from `CMasternode`; the embedded entry carries the announced fields and the
attached last ping, and `fRecovery` is the in-memory recovery tag. -/
structure CMasternodeBroadcast where
  mn : CMasternode
  fRecovery : Bool
deriving DecidableEq

/-- Modelled from the spec: `CMasternodeBroadcast::GetHash` is not under
`src/`; the spec says broadcasts are uniquely hashed, and the recovery
machinery relies on the hash covering the signed announce identity
(collateral outpoint, collateral key, sig time) but not the attached ping,
so the hash is embedded as that triple. -/
abbrev MnbHash := COutPoint × Nat × Int

/-- The hash key of a broadcast. -/
def CMasternodeBroadcast.key (b : CMasternodeBroadcast) : MnbHash :=
  (b.mn.outpoint, b.mn.pubKeyCollateralAddress, b.mn.sigTime)

/-- `CMasternodeBroadcast(const CMasternode&)`: snapshot an entry. -/
def CMasternode.toBroadcast (mn : CMasternode) : CMasternodeBroadcast :=
  ⟨mn, false⟩

/-- `CMasternode(const CMasternodeBroadcast&)`: the entry slice. -/
def CMasternodeBroadcast.toMasternode (b : CMasternodeBroadcast) : CMasternode :=
  b.mn

/-- The default-constructed entry (`CMasternode()`), used to model
`std::map::operator[]` default insertion. -/
def defaultMasternode : CMasternode :=
  { outpoint := nullOutpoint, addr := ⟨0, 0⟩, pubKeyCollateralAddress := 0,
    pubKeyMasternode := 0, sigTime := 0, nProtocolVersion := 0,
    nPoSeBanScore := 0, fPoSeVerified := false, nActiveState := MNState.enabled,
    lastPaidBlock := 0, lastPingSigTime := 0 }

/-- The default-constructed broadcast. -/
def defaultBroadcast : CMasternodeBroadcast := ⟨defaultMasternode, false⟩

/-- First-match association lookup (`std::map::find`). -/
def alookup {κ ν : Type} [BEq κ] (k : κ) : List (κ × ν) → Option ν
  | [] => none
  | p :: rest => if p.1 == k then some p.2 else alookup k rest

/-- Association erasure (`std::map::erase(key)`). -/
def aerase {κ ν : Type} [BEq κ] (k : κ) (m : List (κ × ν)) : List (κ × ν) :=
  m.filter (fun p => !(p.1 == k))

/-- Association assignment (`map[k] = v`): replace the node or append. -/
def aset {κ ν : Type} [BEq κ] (k : κ) (v : ν) : List (κ × ν) → List (κ × ν)
  | [] => [(k, v)]
  | p :: rest => if p.1 == k then (k, v) :: rest else p :: aset k v rest

/-- Association insertion (`std::map::insert`): no-op when present. -/
def ainsert {κ ν : Type} [BEq κ] (k : κ) (v : ν) (m : List (κ × ν)) : List (κ × ν) :=
  if (alookup k m).isSome then m else m ++ [(k, v)]

/-- Modelled from the spec: `MASTERNODE_NEW_START_REQUIRED_SECONDS`
(header not under `src/`; customary value 10800). -/
def MASTERNODE_NEW_START_REQUIRED_SECONDS : Int := 10800

/-- Modelled from the spec: `MASTERNODE_MIN_MNP_SECONDS` (customary 600). -/
def MASTERNODE_MIN_MNP_SECONDS : Int := 600

/-- Modelled from the spec: `MNB_RECOVERY_QUORUM_TOTAL` (customary 10). -/
def MNB_RECOVERY_QUORUM_TOTAL : Nat := 10

/-- Modelled from the spec: `MNB_RECOVERY_QUORUM_REQUIRED` (customary 6). -/
def MNB_RECOVERY_QUORUM_REQUIRED : Nat := 6

/-- Modelled from the spec: `MNB_RECOVERY_MAX_ASK_ENTRIES` (customary 10). -/
def MNB_RECOVERY_MAX_ASK_ENTRIES : Nat := 10

/-- Modelled from the spec: `MNB_RECOVERY_WAIT_SECONDS` (customary 60). -/
def MNB_RECOVERY_WAIT_SECONDS : Int := 60

/-- Modelled from the spec: `MNB_RECOVERY_RETRY_SECONDS` (customary 3600). -/
def MNB_RECOVERY_RETRY_SECONDS : Int := 3600

/-- The manager state components read and written by the broadcast and
housekeeping paths: the registry, `mapSeenMasternodeBroadcast`,
`mMnbRecoveryRequests`, `mMnbRecoveryGoodReplies`,
`mWeAskedForMasternodeListEntry` and the scheduled-connection list. -/
structure ManState where
  registry : Registry
  seenMnb : List (MnbHash × Int × CMasternodeBroadcast)
  recoveryRequests : List (MnbHash × Int × List CService)
  goodReplies : List (MnbHash × List CMasternodeBroadcast)
  weAskedEntry : List (COutPoint × List (CService × Int))
  scheduledMnb : List (CService × MnbHash)
deriving DecidableEq

/-- External collaborators of `CheckMnbAndUpdateMasternodeList`: the clock,
the active identity key, and the entry-level checks that live outside
`src/` (`SimpleCheck`, `Update`, `CheckOutpoint`, `CheckAddr`, the
simulated `Check` for auto-start). -/
structure MnbEnv where
  now : Int
  activePubKey : Nat
  masternodeMode : Bool
  protocolVersion : Int
  simpleCheckOk : CMasternodeBroadcast → Bool
  updateResult : CMasternodeBroadcast → CMasternode → Option CMasternode
  checkOutpointOk : CMasternodeBroadcast → Bool
  checkAddrOk : CMasternodeBroadcast → Bool
  autoStartOk : CMasternodeBroadcast → Bool

/-- The seen branch of masternodeman.cpp:1842-1872: bump the stored
timestamp when nearing the non-recoverable threshold, and when the message
answers an open recovery request from this peer, consume the peer slot and
collect the broadcast as a good reply if it carries a newer ping and a
projected auto-startable state. -/
def checkMnbSeenBranch (env : MnbEnv) (st : ManState) (pfrom : Option CService)
    (mnb : CMasternodeBroadcast) : ManState :=
  let h := mnb.key
  let st1 := match alookup h st.seenMnb with
    | some (ts, oldMnb) =>
      if MASTERNODE_NEW_START_REQUIRED_SECONDS - MASTERNODE_MIN_MNP_SECONDS * 2 <
          env.now - ts
      then { st with seenMnb := aset h (env.now, oldMnb) st.seenMnb } else st
    | none => st
  match pfrom, alookup h st1.recoveryRequests with
  | some paddr, some (deadline, requested) =>
    if env.now < deadline then
      if requested.contains paddr then
        let reqs1 := aset h (deadline, requested.filter (fun a => !(a == paddr))) st1.recoveryRequests
        let st2 := { st1 with recoveryRequests := reqs1 }
        let oldPing := match alookup h st2.seenMnb with
          | some (_, old) => old.mn.lastPingSigTime
          | none => 0
        if oldPing < mnb.mn.lastPingSigTime && env.autoStartOk mnb then
          let good1 := aset h ((alookup h st2.goodReplies).getD [] ++ [mnb]) st2.goodReplies
          { st2 with goodReplies := good1 }
        else st2
      else st1
    else st1
  | _, _ => st1

/-- The main path of masternodeman.cpp:1873-1925: record the hash as seen,
run `SimpleCheck`, then either update the existing entry (evicting the
superseded seen hash, with the `operator[]` default insertion the source
performs while reading it) or run the outpoint/addr checks and `Add`. -/
def checkMnbMainPath (env : MnbEnv) (st : ManState)
    (mnb : CMasternodeBroadcast) : ManState × Bool :=
  let h := mnb.key
  let st1 := { st with seenMnb := ainsert h (env.now, mnb) st.seenMnb }
  if env.simpleCheckOk mnb = false then (st1, false) else
  match RegFind st1.registry mnb.mn.outpoint with
  | some pmn =>
    let oldKey := pmn.toBroadcast.key
    let mnbOld := match alookup oldKey st1.seenMnb with
      | some (_, old) => old
      | none => defaultBroadcast
    let st2 := match alookup oldKey st1.seenMnb with
      | some _ => st1
      | none => { st1 with seenMnb := st1.seenMnb ++ [(oldKey, (0, defaultBroadcast))] }
    match env.updateResult mnb pmn with
    | none => (st2, false)
    | some pmn1 =>
      let reg1 := RegUpdateFirst (fun _ => pmn1) mnb.mn.outpoint st2.registry
      let st3 := { st2 with registry := reg1 }
      if h ≠ mnbOld.key then
        ({ st3 with seenMnb := aerase mnbOld.key st3.seenMnb }, true)
      else (st3, true)
  | none =>
    if env.checkOutpointOk mnb && env.checkAddrOk mnb then
      let res := RegAdd st1.registry mnb.toMasternode
      if res.1 then
        let st2 := { st1 with registry := res.2 }
        if env.masternodeMode && (mnb.mn.pubKeyMasternode == env.activePubKey) then
          if mnb.mn.nProtocolVersion == env.protocolVersion then (st2, true)
          else (st2, false)
        else (st2, true)
      else (st1, false)
    else (st1, false)

/-- `CMasternodeMan::CheckMnbAndUpdateMasternodeList`
(masternodeman.cpp:1831-1926): the seen short-circuit applies only when the
hash is cached and the broadcast is not recovery-tagged. -/
def CheckMnbAndUpdateMasternodeList (env : MnbEnv) (st : ManState)
    (pfrom : Option CService) (mnb : CMasternodeBroadcast) : ManState × Bool :=
  if (alookup mnb.key st.seenMnb).isSome && !mnb.fRecovery then
    (checkMnbSeenBranch env st pfrom mnb, true)
  else checkMnbMainPath env st mnb

/-- One step of the recovery-reply sweep of masternodeman.cpp:362-381: for
a collected reply vector whose request deadline (default 0 when the request
map lacks the hash, as `operator[]` default-constructs) has passed, if the
quorum is met, retag the first collected broadcast with `fRecovery` and
reprocess it, then drain the vector.  The accumulator carries the state and
the log of reprocessed broadcasts. -/
def replySweepStep (env : MnbEnv) (acc : ManState × List CMasternodeBroadcast)
    (hr : MnbHash × List CMasternodeBroadcast) : ManState × List CMasternodeBroadcast :=
  let st := acc.1
  let deadline := ((alookup hr.1 st.recoveryRequests).getD (0, [])).1
  let st1 := if (alookup hr.1 st.recoveryRequests).isSome then st
    else { st with recoveryRequests := st.recoveryRequests ++ [(hr.1, (0, []))] }
  if deadline < env.now then
    if MNB_RECOVERY_QUORUM_REQUIRED ≤ hr.2.length then
      match hr.2 with
      | [] => ({ st1 with goodReplies := aerase hr.1 st1.goodReplies }, acc.2)
      | b :: _ =>
        let b1 := { b with fRecovery := true }
        let st2 := (CheckMnbAndUpdateMasternodeList env st1 none b1).1
        ({ st2 with goodReplies := aerase hr.1 st2.goodReplies }, acc.2 ++ [b1])
    else ({ st1 with goodReplies := aerase hr.1 st1.goodReplies }, acc.2)
  else (st1, acc.2)

/-- The whole sweep: fold the step over the collected reply vectors. -/
def replySweep (env : MnbEnv) (st0 : ManState) :
    ManState × List CMasternodeBroadcast :=
  st0.goodReplies.foldl (replySweepStep env) (st0, [])

theorem alookup_append_some {κ ν : Type} [BEq κ] {k : κ} {v : ν} :
    ∀ (m tail : List (κ × ν)), alookup k m = some v → alookup k (m ++ tail) = some v := by
  intro m
  induction m with
  | nil => intro tail h; exact absurd h (by simp [alookup])
  | cons p rest ih =>
    intro tail h
    by_cases hp : (p.1 == k) = true
    · simp only [alookup, hp, if_true] at h
      simp only [List.cons_append, alookup, hp, if_true, h]
    · simp only [alookup, hp, Bool.false_eq_true, if_false] at h
      simp only [List.cons_append, alookup, hp, Bool.false_eq_true, if_false]
      exact ih tail h

theorem seenBranch_none_requests (env : MnbEnv) (st : ManState)
    (mnb : CMasternodeBroadcast) :
    (checkMnbSeenBranch env st none mnb).recoveryRequests = st.recoveryRequests := by
  unfold checkMnbSeenBranch
  dsimp only
  repeat' split
  all_goals rfl

theorem checkMnb_none_requests (env : MnbEnv) (st : ManState)
    (mnb : CMasternodeBroadcast) :
    (CheckMnbAndUpdateMasternodeList env st none mnb).1.recoveryRequests =
      st.recoveryRequests := by
  unfold CheckMnbAndUpdateMasternodeList
  split
  · exact seenBranch_none_requests env st mnb
  · unfold checkMnbMainPath
    dsimp only
    repeat' split
    all_goals rfl

theorem replySweepStep_requests (env : MnbEnv)
    (acc : ManState × List CMasternodeBroadcast)
    (hr : MnbHash × List CMasternodeBroadcast) {k : MnbHash}
    {v : Int × List CService}
    (h : alookup k acc.1.recoveryRequests = some v) :
    alookup k (replySweepStep env acc hr).1.recoveryRequests = some v := by
  have happ : ∀ tail, alookup k (acc.1.recoveryRequests ++ tail) = some v :=
    fun tail => alookup_append_some _ tail h
  unfold replySweepStep
  dsimp only
  by_cases hs : (alookup hr.1 acc.1.recoveryRequests).isSome = true
  · simp only [hs, if_true]
    split
    · split
      · split
        · exact h
        · rw [checkMnb_none_requests]
          exact h
      · exact h
    · exact h
  · simp only [hs, Bool.false_eq_true, if_false]
    split
    · split
      · split
        · exact happ _
        · rw [checkMnb_none_requests]
          exact happ _
      · exact happ _
    · exact happ _

theorem replySweepStep_log_mono (env : MnbEnv)
    (acc : ManState × List CMasternodeBroadcast)
    (hr : MnbHash × List CMasternodeBroadcast) {x : CMasternodeBroadcast}
    (h : x ∈ acc.2) : x ∈ (replySweepStep env acc hr).2 := by
  unfold replySweepStep
  dsimp only
  repeat' split
  all_goals simp [h]

theorem replySweep_foldl_log_mono (env : MnbEnv) :
    ∀ (l : List (MnbHash × List CMasternodeBroadcast))
      (acc : ManState × List CMasternodeBroadcast) {x : CMasternodeBroadcast},
      x ∈ acc.2 → x ∈ (l.foldl (replySweepStep env) acc).2 := by
  intro l
  induction l with
  | nil => intro acc x h; exact h
  | cons hr l ih =>
    intro acc x h
    exact ih _ (replySweepStep_log_mono env acc hr h)

theorem replySweep_foldl_mem (env : MnbEnv) :
    ∀ (l : List (MnbHash × List CMasternodeBroadcast))
      (acc : ManState × List CMasternodeBroadcast) (h : MnbHash) (dl : Int)
      (reqs : List CService) (b : CMasternodeBroadcast)
      (bs : List CMasternodeBroadcast),
      alookup h acc.1.recoveryRequests = some (dl, reqs) →
      (h, b :: bs) ∈ l → dl < env.now →
      MNB_RECOVERY_QUORUM_REQUIRED ≤ (b :: bs).length →
      { b with fRecovery := true } ∈ (l.foldl (replySweepStep env) acc).2 := by
  intro l
  induction l with
  | nil =>
    intro acc h dl reqs b bs _ hmem
    exact absurd hmem (List.not_mem_nil _)
  | cons hr l ih =>
    intro acc h dl reqs b bs hreq hmem hdl hq
    rcases List.mem_cons.mp hmem with he | hmem2
    · subst he
      rw [List.foldl_cons]
      apply replySweep_foldl_log_mono
      unfold replySweepStep
      dsimp only
      rw [hreq]
      dsimp only [Option.getD, Option.isSome]
      rw [if_pos hdl, if_pos hq]
      simp
    · exact ih _ h dl reqs b bs (replySweepStep_requests env acc hr hreq) hmem2 hdl hq

/-- C7 (amended): for every collected reply vector whose recovery deadline
has passed with at least `MNB_RECOVERY_QUORUM_REQUIRED` good replies, the
housekeeping sweep reprocesses the FIRST collected broadcast (element 0 of
the vector, not the newest) through `CheckMnbAndUpdateMasternodeList` with
`fRecovery = true`; and a recovery-tagged broadcast always bypasses the
seen-broadcast short-circuit. -/
theorem recovery_reprocess_first (env : MnbEnv) :
    (∀ (st : ManState) (h : MnbHash) (dl : Int) (reqs : List CService)
        (b : CMasternodeBroadcast) (bs : List CMasternodeBroadcast),
      alookup h st.recoveryRequests = some (dl, reqs) →
      (h, b :: bs) ∈ st.goodReplies →
      dl < env.now → MNB_RECOVERY_QUORUM_REQUIRED ≤ (b :: bs).length →
      { b with fRecovery := true } ∈ (replySweep env st).2) ∧
    (∀ (st : ManState) (pfrom : Option CService) (mnb : CMasternodeBroadcast),
      mnb.fRecovery = true →
      CheckMnbAndUpdateMasternodeList env st pfrom mnb = checkMnbMainPath env st mnb) := by
  constructor
  · intro st h dl reqs b bs hreq hmem hdl hq
    exact replySweep_foldl_mem env st.goodReplies (st, []) h dl reqs b bs hreq hmem hdl hq
  · intro st pfrom mnb hrec
    unfold CheckMnbAndUpdateMasternodeList
    simp [hrec]

/-- The reply family for the C7 counterexample: identical announce identity
(so one hash), strictly increasing last-ping times. -/
def mkReply (i : Nat) : CMasternodeBroadcast :=
  ⟨{ outpoint := ⟨3, 0⟩, addr := ⟨3, 1⟩, pubKeyCollateralAddress := 3,
     pubKeyMasternode := 3, sigTime := 0, nProtocolVersion := 1,
     nPoSeBanScore := 0, fPoSeVerified := false,
     nActiveState := MNState.newStartRequired,
     lastPaidBlock := 0, lastPingSigTime := (i : Int) }, false⟩

/-- The shared hash of the reply family. -/
def hC7 : MnbHash := (⟨3, 0⟩, 3, 0)

/-- Broadcast environment for the recovery counterexample. -/
def mnbEnvC7 : MnbEnv :=
  { now := 100, activePubKey := 9, masternodeMode := false, protocolVersion := 1,
    simpleCheckOk := fun _ => false, updateResult := fun _ _ => none,
    checkOutpointOk := fun _ => false, checkAddrOk := fun _ => false,
    autoStartOk := fun _ => true }

/-- State with six collected replies (quorum met) and an expired deadline. -/
def stC7 : ManState :=
  { registry := [], seenMnb := [],
    recoveryRequests := [(hC7, (5, []))],
    goodReplies := [(hC7, [mkReply 1, mkReply 2, mkReply 3, mkReply 4,
      mkReply 5, mkReply 6])],
    weAskedEntry := [], scheduledMnb := [] }

/-- C7 counterexample: the sweep reprocesses the first collected reply, not
the newest one — `mkReply 6`, collected last with the strictly newest ping,
is never reprocessed. -/
theorem recovery_newest_counterexample :
    (replySweep mnbEnvC7 stC7).2 = [{ mkReply 1 with fRecovery := true }] ∧
    ¬({ mkReply 6 with fRecovery := true } ∈ (replySweep mnbEnvC7 stC7).2) ∧
    (mkReply 1).mn.lastPingSigTime < (mkReply 6).mn.lastPingSigTime := by
  decide

/-- Witness for `recovery_reprocess_first` at the concrete six-reply state. -/
theorem recovery_reprocess_first_witness :
    (alookup hC7 stC7.recoveryRequests = some (5, []) ∧
     (hC7, [mkReply 1, mkReply 2, mkReply 3, mkReply 4, mkReply 5, mkReply 6]) ∈
       stC7.goodReplies ∧
     (5 : Int) < mnbEnvC7.now ∧ MNB_RECOVERY_QUORUM_REQUIRED ≤ 6 ∧
     (mkReply 1).fRecovery = false) ∧
    { mkReply 1 with fRecovery := true } ∈ (replySweep mnbEnvC7 stC7).2 :=
  ⟨⟨rfl, by decide, by decide, by decide, rfl⟩,
    (recovery_reprocess_first mnbEnvC7).1 stC7 hC7 5 [] (mkReply 1)
      [mkReply 2, mkReply 3, mkReply 4, mkReply 5, mkReply 6]
      rfl (by decide) (by decide) (by decide)⟩

/-! ## The housekeeping tick (`CheckAndRemove`, masternodeman.cpp:293-475) -/

/-- Eviction predicate of masternodeman.cpp:315: spent, update-required or
PoSe-banned entries are removed. -/
def removableState (mn : CMasternode) : Bool :=
  mn.IsOutpointSpent || mn.IsUpdateRequired || mn.IsPoSeBanned

/-- `CMasternodeMan::GetMasternodeRanks` (masternodeman.cpp:810-837) as a
plain list, empty on failure. -/
def GetMasternodeRanks (env : RankEnv) (R : Registry) (nBlockHeight : Int)
    (nMinProtocol : Int) : List (Nat × CMasternode) :=
  if env.listSynced = false then [] else
  match env.blockHashAt nBlockHeight with
  | none => []
  | some bh =>
    match GetMasternodeScores env R bh nMinProtocol with
    | none => []
    | some vec => vec.enum.map (fun p => (p.1 + 1, p.2.2))

/-- The peer-selection loop of masternodeman.cpp:342-350: walk the rank
list while the requested set is below `MNB_RECOVERY_QUORUM_TOTAL`, skipping
peers this outpoint was recently asked at, scheduling a connection for each
taken peer.  Returns (requested set, schedule list, asked-at-least-once). -/
def recoveryAskLoop (askedPeers : List CService) (h : MnbHash) :
    List (Nat × CMasternode) → List CService → List (CService × MnbHash) → Bool →
    List CService × List (CService × MnbHash) × Bool
  | [], setReq, sched, fAsked => (setReq, sched, fAsked)
  | p :: rest, setReq, sched, fAsked =>
    if MNB_RECOVERY_QUORUM_TOTAL ≤ setReq.length then (setReq, sched, fAsked)
    else if askedPeers.contains p.2.addr then
      recoveryAskLoop askedPeers h rest setReq sched fAsked
    else
      recoveryAskLoop askedPeers h rest
        (if setReq.contains p.2.addr then setReq else setReq ++ [p.2.addr])
        (sched ++ [(p.2.addr, h)]) true

/-- External collaborators of the housekeeping tick: the broadcast
environment, the ranking environment (whose sync flag is
`IsMasternodeListSynced`), full-sync state, the `-connect` flag, the
per-entry `Check` transition (entry code outside `src/`), and the random
height drawn for the rank list. -/
structure TickEnv where
  mnb : MnbEnv
  rank : RankEnv
  fullySynced : Bool
  connectArg : Bool
  checkEntry : CMasternode → CMasternode
  randHeight : Int

/-- The removal-and-recovery loop of masternodeman.cpp:310-360: walk the
registry; evict removable entries (erasing their seen broadcast and
ask-entry rows), otherwise possibly initiate recovery for entries in
`NEW_START_REQUIRED`.  The rank list is computed lazily at the first
request, from the map as it stands then. -/
def checkAndRemoveLoop (env : TickEnv) :
    List CMasternode → ManState → Nat → Option (List (Nat × CMasternode)) →
    Registry → ManState
  | [], st, _, _, keep => { st with registry := keep }
  | mn :: rest, st, budget, ranksOpt, keep =>
    if removableState mn then
      checkAndRemoveLoop env rest
        { st with seenMnb := aerase mn.toBroadcast.key st.seenMnb,
                  weAskedEntry := aerase mn.outpoint st.weAskedEntry }
        budget ranksOpt keep
    else
      let fAsk := decide (0 < budget) && env.fullySynced && mn.IsNewStartRequired &&
        !((alookup mn.toBroadcast.key st.recoveryRequests).isSome) && !env.connectArg
      if fAsk then
        let ranks := match ranksOpt with
          | some r => r
          | none => GetMasternodeRanks env.rank (keep ++ mn :: rest) env.randHeight 0
        let askedPeers := ((alookup mn.outpoint st.weAskedEntry).getD []).map Prod.fst
        let r := recoveryAskLoop askedPeers mn.toBroadcast.key ranks [] st.scheduledMnb false
        let budget1 := if r.2.2 then budget - 1 else budget
        let reqs1 := aset mn.toBroadcast.key
          (env.mnb.now + MNB_RECOVERY_WAIT_SECONDS, r.1) st.recoveryRequests
        checkAndRemoveLoop env rest
          { st with scheduledMnb := r.2.1, recoveryRequests := reqs1 }
          budget1 (some ranks) (keep ++ [mn])
      else
        checkAndRemoveLoop env rest st budget ranksOpt (keep ++ [mn])

/-- The removal phase of a tick, started on the full registry. -/
def removalPhase (env : TickEnv) (st : ManState) : ManState :=
  checkAndRemoveLoop env st.registry st MNB_RECOVERY_MAX_ASK_ENTRIES none []

/-- `CMasternodeMan::CheckAndRemove` (masternodeman.cpp:293-475) restricted
to the state components carried by `ManState`: entry `Check`, the removal
and recovery loop, the reply sweep, then the expiry sweeps on the recovery
requests and the ask table (the seen-broadcast cache is deliberately not
expired there, masternodeman.cpp:445). -/
def CheckAndRemove (env : TickEnv) (st : ManState) :
    ManState × List CMasternodeBroadcast :=
  if env.rank.listSynced = false then (st, []) else
  let st0 := { st with registry := st.registry.map env.checkEntry }
  let st1 := checkAndRemoveLoop env st0.registry st0 MNB_RECOVERY_MAX_ASK_ENTRIES none []
  let p := replySweep env.mnb st1
  let st2 := p.1
  let reqs2 := st2.recoveryRequests.filter
    (fun q => !(decide (MNB_RECOVERY_RETRY_SECONDS < env.mnb.now - q.2.1)))
  let asked2 := (st2.weAskedEntry.map
    (fun q => (q.1, q.2.filter (fun e => !(decide (e.2 < env.mnb.now)))))).filter
    (fun q => !q.2.isEmpty)
  ({ st2 with recoveryRequests := reqs2, weAskedEntry := asked2 }, p.2)

theorem alookup_aerase_self {κ ν : Type} [BEq κ] [LawfulBEq κ] (k : κ)
    (m : List (κ × ν)) : alookup k (aerase k m) = none := by
  induction m with
  | nil => rfl
  | cons p rest ih =>
    by_cases hp : (p.1 == k) = true
    · simpa [aerase, hp] using ih
    · simpa [aerase, alookup, hp] using ih

theorem alookup_aerase_none {κ ν : Type} [BEq κ] (k k2 : κ)
    (m : List (κ × ν)) (h : alookup k m = none) :
    alookup k (aerase k2 m) = none := by
  induction m with
  | nil => rfl
  | cons p rest ih =>
    by_cases hp : (p.1 == k) = true
    · simp [alookup, hp] at h
    · simp only [alookup, hp, Bool.false_eq_true, if_false] at h
      by_cases hp2 : (p.1 == k2) = true
      · simpa [aerase, hp2] using ih h
      · simpa [aerase, alookup, hp, hp2] using ih h

theorem checkAndRemoveLoop_seen_none (env : TickEnv) :
    ∀ (l : List CMasternode) (st : ManState) (budget : Nat)
      (ranksOpt : Option (List (Nat × CMasternode))) (keep : Registry)
      (k : MnbHash), alookup k st.seenMnb = none →
      alookup k (checkAndRemoveLoop env l st budget ranksOpt keep).seenMnb = none := by
  intro l
  induction l with
  | nil => intro st budget ranksOpt keep k h; exact h
  | cons mn rest ih =>
    intro st budget ranksOpt keep k h
    unfold checkAndRemoveLoop
    by_cases hrm : removableState mn = true
    · simp only [hrm, if_true]
      exact ih _ _ _ _ k (alookup_aerase_none k _ _ h)
    · simp only [hrm, Bool.false_eq_true, if_false]
      split
      · exact ih _ _ _ _ k h
      · exact ih _ _ _ _ k h

theorem checkAndRemoveLoop_removes_key (env : TickEnv) :
    ∀ (l : List CMasternode) (st : ManState) (budget : Nat)
      (ranksOpt : Option (List (Nat × CMasternode))) (keep : Registry)
      (mn : CMasternode), mn ∈ l → removableState mn = true →
      alookup mn.toBroadcast.key
        (checkAndRemoveLoop env l st budget ranksOpt keep).seenMnb = none := by
  intro l
  induction l with
  | nil => intro st budget ranksOpt keep mn hmem; exact absurd hmem (List.not_mem_nil mn)
  | cons x rest ih =>
    intro st budget ranksOpt keep mn hmem hrm
    rcases List.mem_cons.mp hmem with he | hmem2
    · subst he
      unfold checkAndRemoveLoop
      simp only [hrm, if_true]
      exact checkAndRemoveLoop_seen_none env rest _ budget ranksOpt keep _
        (alookup_aerase_self _ _)
    · unfold checkAndRemoveLoop
      by_cases hx : removableState x = true
      · simp only [hx, if_true]
        exact ih _ _ _ _ mn hmem2 hrm
      · simp only [hx, Bool.false_eq_true, if_false]
        split
        · exact ih _ _ _ _ mn hmem2 hrm
        · exact ih _ _ _ _ mn hmem2 hrm

theorem checkAndRemoveLoop_registry (env : TickEnv) :
    ∀ (l : List CMasternode) (st : ManState) (budget : Nat)
      (ranksOpt : Option (List (Nat × CMasternode))) (keep : Registry),
      (checkAndRemoveLoop env l st budget ranksOpt keep).registry =
        keep ++ l.filter (fun mn => !removableState mn) := by
  intro l
  induction l with
  | nil => intro st budget ranksOpt keep; simp [checkAndRemoveLoop]
  | cons mn rest ih =>
    intro st budget ranksOpt keep
    unfold checkAndRemoveLoop
    by_cases hrm : removableState mn = true
    · simp only [hrm, if_true, List.filter_cons, Bool.not_true, Bool.false_eq_true,
        if_false]
      exact ih _ _ _ _
    · simp only [hrm, Bool.false_eq_true, if_false, List.filter_cons, Bool.not_false]
      split
      · rw [ih]
        simp
      · rw [ih]
        simp

/-- C8 (amended): after the removal phase of a housekeeping tick, the
registry holds exactly the entries that were not removable, and no removed
entry's current-state broadcast hash remains in the seen-broadcast cache;
broadcasts whose outpoint never entered the registry may persist there. -/
theorem removal_cleans_seen (env : TickEnv) (st : ManState) :
    (∀ mn ∈ st.registry, removableState mn = true →
      alookup mn.toBroadcast.key (removalPhase env st).seenMnb = none) ∧
    (removalPhase env st).registry =
      st.registry.filter (fun mn => !removableState mn) := by
  constructor
  · intro mn hmem hrm
    exact checkAndRemoveLoop_removes_key env st.registry st
      MNB_RECOVERY_MAX_ASK_ENTRIES none [] mn hmem hrm
  · simpa using checkAndRemoveLoop_registry env st.registry st
      MNB_RECOVERY_MAX_ASK_ENTRIES none []

/-- The empty manager state. -/
def emptyManState : ManState := ⟨[], [], [], [], [], []⟩

/-- An announcement that fails `SimpleCheck` for the C8 counterexample. -/
def mnbOrphan : CMasternodeBroadcast :=
  ⟨{ outpoint := ⟨4, 0⟩, addr := ⟨4, 1⟩, pubKeyCollateralAddress := 4,
     pubKeyMasternode := 4, sigTime := 0, nProtocolVersion := 1,
     nPoSeBanScore := 0, fPoSeVerified := false, nActiveState := MNState.enabled,
     lastPaidBlock := 0, lastPingSigTime := 0 }, false⟩

/-- Tick environment for the C8 scenarios (the broadcast environment
rejects everything at `SimpleCheck`). -/
def tickEnvC8 : TickEnv :=
  { mnb := mnbEnvC7, rank := rankEnvW, fullySynced := true, connectArg := false,
    checkEntry := fun mn => mn, randHeight := 10 }

/-- C8 counterexample: a broadcast rejected by `SimpleCheck` stays in the
seen-broadcast cache with no registry entry, and a full housekeeping tick
does not purge it — the claimed invariant fails. -/
theorem seen_orphan_counterexample :
    (CheckMnbAndUpdateMasternodeList mnbEnvC7 emptyManState none mnbOrphan).2 = false ∧
    alookup mnbOrphan.key
      ((CheckAndRemove tickEnvC8
        (CheckMnbAndUpdateMasternodeList mnbEnvC7 emptyManState none mnbOrphan).1).1).seenMnb
      ≠ none ∧
    RegHas ((CheckAndRemove tickEnvC8
      (CheckMnbAndUpdateMasternodeList mnbEnvC7 emptyManState none mnbOrphan).1).1).registry
      mnbOrphan.mn.outpoint = false := by
  decide

/-- A spent entry for the C8 witness. -/
def mnSpent : CMasternode :=
  { outpoint := ⟨5, 0⟩, addr := ⟨5, 1⟩, pubKeyCollateralAddress := 5,
    pubKeyMasternode := 5, sigTime := 0, nProtocolVersion := 1,
    nPoSeBanScore := 0, fPoSeVerified := false,
    nActiveState := MNState.outpointSpent, lastPaidBlock := 0,
    lastPingSigTime := 0 }

/-- A state holding the spent entry and its seen broadcast. -/
def stC8 : ManState :=
  { registry := [mnSpent],
    seenMnb := [(mnSpent.toBroadcast.key, (0, mnSpent.toBroadcast))],
    recoveryRequests := [], goodReplies := [], weAskedEntry := [],
    scheduledMnb := [] }

/-- Witness for `removal_cleans_seen` at the concrete spent entry. -/
theorem removal_cleans_seen_witness :
    (mnSpent ∈ stC8.registry ∧ removableState mnSpent = true) ∧
    alookup mnSpent.toBroadcast.key (removalPhase tickEnvC8 stC8).seenMnb = none ∧
    (removalPhase tickEnvC8 stC8).registry =
      stC8.registry.filter (fun mn => !removableState mn) :=
  ⟨⟨by decide, by decide⟩,
    (removal_cleans_seen tickEnvC8 stC8).1 mnSpent (by decide) (by decide),
    (removal_cleans_seen tickEnvC8 stC8).2⟩

/-! ## Duplicate-address sweep (`CheckSameAddr`, masternodeman.cpp:1257-1353) -/

/-- External collaborators of `CheckSameAddr`: sync state, the active
identity, and the socket probe `MnCheckConnect` (masternodeman.cpp:
1130-1148), which performs network I/O and is therefore passed in as its
observable outcome per entry. -/
structure SameAddrEnv where
  fullySynced : Bool
  active : ActiveSelf
  connectOk : CMasternode → Bool

/-- Reflexive closure of `CompareByAddr` for the stable model sort. -/
def CompareByAddrB (a b : CMasternode) : Bool :=
  CService.ltb a.addr b.addr || a.addr == b.addr

/-- Reflexive closure of `CompareByPoSeBanScore` for the stable model
sort. -/
def CompareByPoSeB (a b : CMasternode) : Bool :=
  a.nPoSeBanScore < b.nPoSeBanScore || a.nPoSeBanScore == b.nPoSeBanScore

/-- Position scan for `findInVector` (masternodeman.cpp:69-89). -/
def findIdxAux (x : CMasternode) : List CMasternode → Int → Int
  | [], _ => -1
  | y :: rest, i => if y == x then i else findIdxAux x rest (i + 1)

/-- `findInVector` returning the first position of the element (the C++
version compares the pointers held by the vectors), -1 when absent. -/
def findInVector (l : List CMasternode) (x : CMasternode) : Int := findIdxAux x l 0

/-- The run-detection loop of masternodeman.cpp:1294-1327: walk the
addr-sorted valid entries; within a run of equal ip, ban the entry whose
PoSe-sorted position is higher than the tracked winner, otherwise ban the
PREVIOUS entry and adopt the current one as winner; in both cases record
(once per ip, as `emplace` keeps the first value) the winner for a
verification ask. -/
def sameAddrLoop (vPoSe : List CMasternode) :
    List CMasternode → Option CMasternode → Int × Option CMasternode →
    List CMasternode → List (Nat × CMasternode) →
    List CMasternode × List (Nat × CMasternode)
  | [], _, _, vBan, askMap => (vBan, askMap)
  | pmn :: rest, pprev, winner, vBan, askMap =>
    if removableState pmn then
      sameAddrLoop vPoSe rest pprev winner vBan askMap
    else
      match pprev with
      | none =>
        sameAddrLoop vPoSe rest (some pmn) (findInVector vPoSe pmn, some pmn) vBan askMap
      | some prev =>
        let idx := findInVector vPoSe pmn
        if pmn.addr.ip == prev.addr.ip then
          if winner.1 < idx then
            let askMap1 := if (alookup pmn.addr.ip askMap).isSome then askMap
              else askMap ++ [(pmn.addr.ip, winner.2.getD pmn)]
            sameAddrLoop vPoSe rest (some pmn) winner (vBan ++ [pmn]) askMap1
          else
            let askMap1 := if (alookup pmn.addr.ip askMap).isSome then askMap
              else askMap ++ [(pmn.addr.ip, pmn)]
            sameAddrLoop vPoSe rest (some pmn) (idx, some pmn) (vBan ++ [prev]) askMap1
        else
          sameAddrLoop vPoSe rest (some pmn) (idx, some pmn) vBan askMap

/-- `CMasternodeMan::CheckSameAddr` (masternodeman.cpp:1257-1353).
Returns the new registry, the outpoints PoSe-banned by the sweep (own-addr
bans first, then the duplicate-run bans in ban order), and the outpoints
scheduled for a verification ask.  Winners whose connectivity probe fails
get their ban score increased instead. -/
def CheckSameAddr (env : SameAddrEnv) (R : Registry) :
    Registry × List COutPoint × List COutPoint :=
  if env.fullySynced = false || R.isEmpty then (R, [], []) else
  let selected := R.filter (fun mn =>
    !(mn.outpoint == env.active.outpoint) && !(mn.addr == env.active.service))
  let vSortedByAddr := sortB CompareByAddrB selected
  let vSortedByPoSe := sortB CompareByPoSeB selected
  let res := sameAddrLoop vSortedByPoSe vSortedByAddr none (-1, none) [] []
  let vBanOutpoints := res.1.map (fun mn => mn.outpoint)
  let ownAddrBans := (R.filter (fun mn =>
    !(mn.outpoint == env.active.outpoint) && mn.addr == env.active.service)).map
    (fun mn => mn.outpoint)
  let R1 := R.map (fun mn =>
    if !(mn.outpoint == env.active.outpoint) && mn.addr == env.active.service then
      mn.PoSeBan
    else if res.1.any (fun b => b.outpoint == mn.outpoint) then mn.PoSeBan
    else mn)
  let winners := res.2.map Prod.snd
  let R2 := R1.map (fun mn =>
    if winners.any (fun w => !(env.connectOk w) && w.outpoint == mn.outpoint) then
      mn.IncreasePoSeBanScore
    else mn)
  let askOutpoints := (res.2.filter (fun p => env.connectOk p.2)).map
    (fun p => p.2.outpoint)
  (R2, ownAddrBans ++ vBanOutpoints, askOutpoints)

/-- Three same-ip entries with PoSe-sorted positions (1, 2, 0). -/
def a3 : CMasternode :=
  { outpoint := ⟨1, 0⟩, addr := ⟨7, 1⟩, pubKeyCollateralAddress := 1,
    pubKeyMasternode := 1, sigTime := 0, nProtocolVersion := 1,
    nPoSeBanScore := 1, fPoSeVerified := false, nActiveState := MNState.enabled,
    lastPaidBlock := 0, lastPingSigTime := 0 }

/-- Second run member, highest ban score. -/
def b3 : CMasternode :=
  { a3 with
      outpoint := ⟨2, 0⟩, pubKeyCollateralAddress := 2,
      pubKeyMasternode := 2, nPoSeBanScore := 2 }

/-- Third run member, lowest ban score. -/
def c3 : CMasternode :=
  { a3 with
      outpoint := ⟨3, 0⟩, pubKeyCollateralAddress := 3,
      pubKeyMasternode := 3, nPoSeBanScore := 0 }

/-- Sweep environment for the C9 scenarios. -/
def saEnv : SameAddrEnv :=
  { fullySynced := true, active := ⟨⟨9, 9⟩, ⟨9, 9⟩⟩, connectOk := fun _ => true }

/-- C9 counterexample: in a contiguous run of three entries with one addr
and ban scores (1, 2, 0), the sweep bans only `b3` (twice): `a3` survives
although its score is not the lowest, so "the entry with the lowest ban
score survives and all others are banned" fails. -/
theorem checkSameAddr_run_counterexample :
    (CheckSameAddr saEnv [a3, b3, c3]).2.1 = [b3.outpoint, b3.outpoint] ∧
    a3.addr = b3.addr ∧ b3.addr = c3.addr ∧
    c3.nPoSeBanScore < a3.nPoSeBanScore := by
  decide

/-- C9 (amended): for a registry of exactly two valid entries sharing one
addr (neither the active node, nor at its service address), `CheckSameAddr`
PoSe-bans exactly one of them, and the survivor has a ban score at most
that of the banned one.  (For runs of three or more the loop can ban an
already-banned entry instead of a remaining duplicate, so only the
lowest-positioned entry is guaranteed to survive.) -/
theorem checkSameAddr_two_entries (env : SameAddrEnv) (e1 e2 : CMasternode)
    (hsync : env.fullySynced = true)
    (haddr : e1.addr = e2.addr)
    (hown1 : e1.addr ≠ env.active.service)
    (hact1 : e1.outpoint ≠ env.active.outpoint)
    (hact2 : e2.outpoint ≠ env.active.outpoint)
    (hne : e1.outpoint ≠ e2.outpoint)
    (hv1 : removableState e1 = false) (hv2 : removableState e2 = false) :
    (e1.nPoSeBanScore ≤ e2.nPoSeBanScore ∧
      (CheckSameAddr env [e1, e2]).2.1 = [e2.outpoint]) ∨
    (e2.nPoSeBanScore < e1.nPoSeBanScore ∧
      (CheckSameAddr env [e1, e2]).2.1 = [e1.outpoint]) := by
  have hown2 : e2.addr ≠ env.active.service := fun h => hown1 (haddr.trans h)
  have hb1 : (e1.outpoint == env.active.outpoint) = false := beq_eq_false_iff_ne.mpr hact1
  have hb2 : (e2.outpoint == env.active.outpoint) = false := beq_eq_false_iff_ne.mpr hact2
  have hba1 : (e1.addr == env.active.service) = false := beq_eq_false_iff_ne.mpr hown1
  have hba2 : (e2.addr == env.active.service) = false := beq_eq_false_iff_ne.mpr hown2
  have hne21 : e2 ≠ e1 := fun h => hne (congrArg CMasternode.outpoint h).symm
  have hne12 : e1 ≠ e2 := fun h => hne (congrArg CMasternode.outpoint h)
  have he21 : (e2 == e1) = false := beq_eq_false_iff_ne.mpr hne21
  have he12 : (e1 == e2) = false := beq_eq_false_iff_ne.mpr hne12
  have hip : (e2.addr.ip == e1.addr.ip) = true := by
    rw [haddr]
    exact beq_self_eq_true _
  have hsel : ([e1, e2].filter (fun mn =>
      !(mn.outpoint == env.active.outpoint) && !(mn.addr == env.active.service))) =
      [e1, e2] := by
    simp [List.filter, hb1, hb2, hba1, hba2]
  have haddrB : CompareByAddrB e1 e2 = true := by
    simp [CompareByAddrB, haddr]
  have hA : sortB CompareByAddrB [e1, e2] = [e1, e2] := by
    simp [sortB, orderedInsertB, haddrB]
  by_cases hle : CompareByPoSeB e1 e2 = true
  · have hs : e1.nPoSeBanScore ≤ e2.nPoSeBanScore := by
      simp [CompareByPoSeB] at hle
      rcases hle with h | h
      · exact le_of_lt h
      · exact le_of_eq h
    have hP : sortB CompareByPoSeB [e1, e2] = [e1, e2] := by
      simp [sortB, orderedInsertB, hle]
    have hf1 : findInVector [e1, e2] e1 = 0 := by
      simp [findInVector, findIdxAux]
    have hf2 : findInVector [e1, e2] e2 = 1 := by
      simp [findInVector, findIdxAux, he12]
    have hloop : sameAddrLoop [e1, e2] [e1, e2] none (-1, none) [] [] =
        ([e2], [(e2.addr.ip, e1)]) := by
      simp [sameAddrLoop, hv1, hv2, hf1, hf2, hip, alookup]
    left
    refine ⟨hs, ?_⟩
    unfold CheckSameAddr
    simp [hsync, hsel, hA, hP, hloop, hba1, hba2, hb1, hb2]
  · rw [Bool.not_eq_true] at hle
    have hs : e2.nPoSeBanScore < e1.nPoSeBanScore := by
      simp [CompareByPoSeB] at hle
      omega
    have hP : sortB CompareByPoSeB [e1, e2] = [e2, e1] := by
      simp [sortB, orderedInsertB, hle]
    have hf1 : findInVector [e2, e1] e1 = 1 := by
      simp [findInVector, findIdxAux, he21]
    have hf2 : findInVector [e2, e1] e2 = 0 := by
      simp [findInVector, findIdxAux]
    have hloop : sameAddrLoop [e2, e1] [e1, e2] none (-1, none) [] [] =
        ([e1], [(e2.addr.ip, e2)]) := by
      simp [sameAddrLoop, hv1, hv2, hf1, hf2, hip, alookup]
    right
    refine ⟨hs, ?_⟩
    unfold CheckSameAddr
    simp [hsync, hsel, hA, hP, hloop, hba1, hba2, hb1, hb2]

/-- Witness for `checkSameAddr_two_entries` on two concrete same-addr
entries with ban scores 1 and 2: the higher-scored one is banned. -/
theorem checkSameAddr_two_entries_witness :
    (saEnv.fullySynced = true ∧ a3.addr = b3.addr ∧
     a3.addr ≠ saEnv.active.service ∧ a3.outpoint ≠ b3.outpoint ∧
     removableState a3 = false ∧ removableState b3 = false) ∧
    ((a3.nPoSeBanScore ≤ b3.nPoSeBanScore ∧
      (CheckSameAddr saEnv [a3, b3]).2.1 = [b3.outpoint]) ∨
     (b3.nPoSeBanScore < a3.nPoSeBanScore ∧
      (CheckSameAddr saEnv [a3, b3]).2.1 = [a3.outpoint])) :=
  ⟨⟨rfl, rfl, by decide, by decide, by decide, by decide⟩,
    checkSameAddr_two_entries saEnv a3 b3 rfl rfl (by decide) (by decide)
      (by decide) (by decide) (by decide) (by decide)⟩
